import Mathlib

/-!
Verification of the geometric drafting core of the wood-drawing application.

The JavaScript sources are embedded shallowly:

* JS numbers are modelled as rationals (`ℚ`).  All arithmetic the claims
  exercise is exact rational arithmetic.  `Math.hypot` (used for Euclidean
  distances and vector normalisation) produces irrational square roots, so
  every definition that *stores* a hypot-derived value is parameterised by a
  function `hypot : ℚ → ℚ → ℚ`; theorems quantify over it (or pin the exact
  values they need, e.g. `hypot 1 0 = 1`).  Guards of the form
  `dist p q < c` compare the distance only, so they are embedded as the
  equivalent squared comparison `distSq p q < c ^ 2` (real `sqrt` is
  monotone and both sides are nonnegative).
* JS strings are modelled as `List Char`; JS objects as structures; JS
  `null`/`undefined` as `Option`; in-place mutation as functional update.
* `x / 0 = 0` in `ℚ` where JS would give `Infinity`/`NaN`; every division
  site the claims exercise is guarded to a nonzero divisor, matching the
  source's own guards.
-/

/-- A 2D point.  `lengthToNext` models the `lengthToNext` property the JS
code attaches dynamically to point objects (absent = `none`). -/
structure Point where
  x : ℚ
  y : ℚ
  lengthToNext : Option ℚ := none
deriving DecidableEq

/-- Default used where JS indexing out of range would yield `undefined`;
no claim exercises such a site. -/
def dfltPoint : Point := { x := 0, y := 0, lengthToNext := none }

/-- A view record `{pan: {x,y}, zoom}`. -/
structure View where
  pan : Point
  zoom : ℚ
deriving DecidableEq

/-- Result of `Geometry.getFaceOrigin`. -/
structure FaceOrigin where
  origin : Point
  xMult : ℚ
deriving DecidableEq

/-- A tenon `{x, y, w, h, depth, inset}` (face-local inches). -/
structure Tenon where
  x : ℚ
  y : ℚ
  w : ℚ
  h : ℚ
  depth : ℚ
  inset : ℚ
deriving DecidableEq

/-- A cutout `{x, y, w, h, depth}` (face-local inches). -/
structure Cutout where
  x : ℚ
  y : ℚ
  w : ℚ
  h : ℚ
  depth : ℚ
deriving DecidableEq

/-- One value of the `faceData` map: `{tenons: [], cutouts: []}`. -/
structure FaceEntry where
  tenons : List Tenon
  cutouts : List Cutout
deriving DecidableEq

/-- A 3D vector used by `transform3D`. -/
structure Vec3 where
  x : ℚ
  y : ℚ
  z : ℚ
deriving DecidableEq

/-- The `transform3D` record of a shape. -/
structure Transform3D where
  position : Vec3
  rotation : Vec3
deriving DecidableEq

/-- A Shape as produced by `ShapeModel.create` / the drawing state machine.
`faceData` is an association list keyed by the JS string keys (`FRONT`,
`BACK`, `EDGE_<i>`), in object-insertion order. -/
structure Shape where
  id : List Char
  name : List Char
  points : List Point
  closed : Bool
  thickness : ℚ
  activeFace : List Char
  faceData : List (List Char × FaceEntry)
  transform3D : Transform3D
deriving DecidableEq

/-- CONFIG.SNAP_RADIUS_SCREEN_PX (core/config). -/
def SNAP_RADIUS_SCREEN_PX : ℚ := 15

/-- CONFIG.SCALE_PIXELS_PER_INCH (core/config). -/
def SCALE_PIXELS_PER_INCH : ℚ := 10

/-- CONFIG.DEFAULT_THICKNESS (core/config). -/
def DEFAULT_THICKNESS : ℚ := 1

/-- CONFIG.ARROW_GRID_RADIUS (core/config). -/
def ARROW_GRID_RADIUS : ℚ := 40

/-- The JS string "FRONT". -/
def frontStr : List Char := ['F','R','O','N','T']

/-- The JS string "BACK". -/
def backStr : List Char := ['B','A','C','K']

/-- The JS string "EDGE_" (prefix of edge face names). -/
def edgePre : List Char := ['E','D','G','E','_']

/-- JS `a || b` on numbers: `a` when truthy (nonzero), else `b`. -/
def jsOrQ (a b : ℚ) : ℚ := if a = 0 then b else a

/-- JS `Math.round`: round half toward positive infinity. -/
def jsRound (q : ℚ) : ℤ := ⌊q + 1/2⌋

namespace Geometry

/-- Squared Euclidean distance.  `Geometry.dist` itself is
`Math.hypot(p2.x-p1.x, p2.y-p1.y)`; guards `dist < c` in the source are
embedded as `distSq < c^2`, which is equivalent over the reals. -/
def distSq (p1 p2 : Point) : ℚ :=
  (p2.x - p1.x) ^ 2 + (p2.y - p1.y) ^ 2

/-- `Geometry.dist` where the irrational square root is supplied by the
`hypot` parameter (see the file comment). -/
def dist (hypot : ℚ → ℚ → ℚ) (p1 p2 : Point) : ℚ :=
  hypot (p2.x - p1.x) (p2.y - p1.y)

/-- Geometry.screenToWorld. -/
def screenToWorld (pos : Point) (view : View) : Point :=
  { x := (pos.x - view.pan.x) / view.zoom
    y := (pos.y - view.pan.y) / view.zoom
    lengthToNext := none }

/-- Geometry.worldToScreen. -/
def worldToScreen (pos : Point) (view : View) : Point :=
  { x := pos.x * view.zoom + view.pan.x
    y := pos.y * view.zoom + view.pan.y
    lengthToNext := none }

/-- Geometry.normalize: `mag = Math.hypot(x, y) || 1`, divide through.
The square root is supplied by the `hypot` parameter. -/
def normalize (hypot : ℚ → ℚ → ℚ) (vx vy : ℚ) : ℚ × ℚ :=
  let mag := jsOrQ (hypot vx vy) 1
  (vx / mag, vy / mag)

/-- Geometry.dot on `{x, y}` pairs. -/
def dot (v1x v1y v2x v2y : ℚ) : ℚ := v1x * v2x + v1y * v2y

/-- Geometry.closestPointOnSegment (parametric projection, `t` clamped to
`[0,1]`; degenerate segment returns its start). -/
def closestPointOnSegment (p p1 p2 : Point) : Point :=
  let dx := p2.x - p1.x
  let dy := p2.y - p1.y
  if dx = 0 ∧ dy = 0 then p1
  else
    let t := ((p.x - p1.x) * dx + (p.y - p1.y) * dy) / (dx * dx + dy * dy)
    let tClamped := max 0 (min 1 t)
    { x := p1.x + tClamped * dx, y := p1.y + tClamped * dy, lengthToNext := none }

/-- Geometry.calculateCentroid: arithmetic mean of the vertices, `{x:0,y:0}`
for an empty list (the source folds with `forEach`, embedded as sums). -/
def calculateCentroid (points : List Point) : Point :=
  if points = [] then { x := 0, y := 0, lengthToNext := none }
  else
    { x := (points.map Point.x).sum / points.length
      y := (points.map Point.y).sum / points.length
      lengthToNext := none }

/-- Geometry.calculateArea: shoelace formula, absolute value, divided by
`2 * scale^2`.  Returns 0 for fewer than 3 points. -/
def calculateArea (points : List Point) (scale : ℚ) : ℚ :=
  if points.length < 3 then 0
  else
    let n := points.length
    let cross := (List.range n).foldl
      (fun acc i =>
        let p := points.getD i dfltPoint
        let q := points.getD ((i + 1) % n) dfltPoint
        acc + p.x * q.y - q.x * p.y) 0
    |cross| / 2 / (scale * scale)

/-- JS `parseInt` on a string expected to hold digits: `none` models `NaN`. -/
def jsParseInt (s : List Char) : Option Nat :=
  let ds := s.takeWhile Char.isDigit
  if ds = [] then none
  else some (ds.foldl (fun acc c => acc * 10 + (c.toNat - 48)) 0)

/-- Geometry.getFaceOrigin.  `faceName` is `Option` because callers may pass
`null`/`undefined`; JS `!faceName` is also true for the empty string.  In the
`EDGE_` branch an out-of-range index would make JS throw on
`shape.points[idx].lengthToNext`; it is modelled with a default point, and no
claim exercises that site. -/
def getFaceOrigin (shape : Shape) (faceName : Option (List Char)) (scale : ℚ) :
    FaceOrigin :=
  let centroid := calculateCentroid shape.points
  if faceName = none ∨ faceName = some [] ∨ faceName = some frontStr then
    { origin := shape.points.headD dfltPoint, xMult := 1 }
  else if faceName = some backStr then
    { origin := { x := 2 * centroid.x - (shape.points.headD dfltPoint).x
                  y := (shape.points.headD dfltPoint).y
                  lengthToNext := none }
      xMult := -1 }
  else if (match faceName with
           | some s => edgePre.isPrefixOf s
           | none => false) then
    let s := faceName.getD []
    let idx := (jsParseInt ((s.splitOn '_').getD 1 [])).getD 0
    let len := jsOrQ (((shape.points.getD idx dfltPoint).lengthToNext).getD 0) 0
    let thick := jsOrQ shape.thickness 1
    { origin := { x := centroid.x - len * scale / 2
                  y := centroid.y - thick * scale / 2
                  lengthToNext := none }
      xMult := 1 }
  else
    { origin := shape.points.headD dfltPoint, xMult := 1 }

/-- Geometry.recalculateSideLengths: unchanged for fewer than 2 points, else
sets every point's `lengthToNext` to the distance to the next point (cyclic)
divided by `scale`.  The distance comes from `Math.hypot`, hence the `hypot`
parameter. -/
def recalculateSideLengths (hypot : ℚ → ℚ → ℚ) (points : List Point)
    (scale : ℚ) : List Point :=
  if points.length < 2 then points
  else
    points.mapIdx (fun i p =>
      let nxt := points.getD ((i + 1) % points.length) dfltPoint
      { p with lengthToNext := some (dist hypot p nxt / scale) })

end Geometry

/-- Concrete shape used by witnesses: a triangle with distinct coordinates. -/
def witShape : Shape :=
  { id := ['a']
    name := ['P','a','r','t']
    points := [{ x := 1, y := 2, lengthToNext := none },
               { x := 3, y := 4, lengthToNext := none },
               { x := 5, y := 0, lengthToNext := none }]
    closed := true
    thickness := 1
    activeFace := frontStr
    faceData := []
    transform3D := ⟨⟨0, 0, 0⟩, ⟨0, 0, 0⟩⟩ }

/-- Face names that are neither `FRONT`, nor `BACK`, nor `EDGE_`-prefixed
(`none` models a `null`/`undefined` face name). -/
def isOtherFaceName : Option (List Char) → Prop
  | none => True
  | some s => s ≠ frontStr ∧ s ≠ backStr ∧ edgePre.isPrefixOf s = false

/-- C8: for a shape with a non-empty points list, `getFaceOrigin` on `BACK`
returns origin `{x: 2*cx - points[0].x, y: points[0].y}` with `xMult = -1`,
where `cx` is the x of the arithmetic-mean centroid, and mirroring that
origin back across the centroid x recovers `points[0]` exactly. -/
theorem back_face_origin_mirror (shape : Shape) (scale : ℚ)
    (_hpts : shape.points ≠ []) :
    Geometry.getFaceOrigin shape (some backStr) scale =
      { origin := { x := 2 * (Geometry.calculateCentroid shape.points).x -
                         (shape.points.headD dfltPoint).x
                    y := (shape.points.headD dfltPoint).y
                    lengthToNext := none }
        xMult := -1 } ∧
    2 * (Geometry.calculateCentroid shape.points).x -
        (Geometry.getFaceOrigin shape (some backStr) scale).origin.x =
      (shape.points.headD dfltPoint).x ∧
    (Geometry.getFaceOrigin shape (some backStr) scale).origin.y =
      (shape.points.headD dfltPoint).y := by
  have hfo : Geometry.getFaceOrigin shape (some backStr) scale =
      { origin := { x := 2 * (Geometry.calculateCentroid shape.points).x -
                         (shape.points.headD dfltPoint).x
                    y := (shape.points.headD dfltPoint).y
                    lengthToNext := none }
        xMult := -1 } := by
    simp [Geometry.getFaceOrigin, backStr, frontStr]
  exact ⟨hfo, by rw [hfo]; try ring, by rw [hfo]; try ring⟩

/-- Witness for C8 at a concrete triangle. -/
theorem back_face_origin_mirror_witness :
    Geometry.getFaceOrigin witShape (some backStr) 10 =
      { origin := { x := 2 * (Geometry.calculateCentroid witShape.points).x -
                         (witShape.points.headD dfltPoint).x
                    y := (witShape.points.headD dfltPoint).y
                    lengthToNext := none }
        xMult := -1 } ∧
    2 * (Geometry.calculateCentroid witShape.points).x -
        (Geometry.getFaceOrigin witShape (some backStr) 10).origin.x =
      (witShape.points.headD dfltPoint).x ∧
    (Geometry.getFaceOrigin witShape (some backStr) 10).origin.y =
      (witShape.points.headD dfltPoint).y :=
  back_face_origin_mirror witShape 10 (List.cons_ne_nil _ _)

/-- C10: for a shape with non-empty points, a face name that is neither
`FRONT`, nor `BACK`, nor `EDGE_`-prefixed (including a null face name) falls
back to the FRONT result: origin `points[0]`, `xMult = 1`. -/
theorem face_origin_default_fallback (shape : Shape) (scale : ℚ)
    (fn : Option (List Char)) (_hpts : shape.points ≠ [])
    (hfn : isOtherFaceName fn) :
    Geometry.getFaceOrigin shape fn scale =
      { origin := shape.points.headD dfltPoint, xMult := 1 } := by
  cases fn with
  | none => simp [Geometry.getFaceOrigin]
  | some s =>
    obtain ⟨h1, h2, h3⟩ := hfn
    by_cases hs : s = []
    · subst hs; simp [Geometry.getFaceOrigin]
    · simp [Geometry.getFaceOrigin, hs, h1, h2, h3]

/-- Witness for C10 at a concrete shape and the face name "X". -/
theorem face_origin_default_fallback_witness :
    Geometry.getFaceOrigin witShape (some ['X']) 10 =
      { origin := witShape.points.headD dfltPoint, xMult := 1 } :=
  face_origin_default_fallback witShape 10 (some ['X'])
    (List.cons_ne_nil _ _)
    (show ['X'] ≠ frontStr ∧ ['X'] ≠ backStr ∧ edgePre.isPrefixOf ['X'] = false
      by decide)

namespace Geometry

/-- Inner loop of `findSegment` inside Geometry.splitPolygon: scan edge
indices from `i` upward, returning the first edge whose distance to `p` is
below `0.01` (embedded as the squared comparison).  The fuel argument counts
the remaining iterations of the JS `for` loop. -/
def findSegAux (pts : List Point) (p : Point) : Nat → Nat → Option Nat
  | _, 0 => none
  | i, fuel + 1 =>
    let p1 := pts.getD i dfltPoint
    let p2 := pts.getD ((i + 1) % pts.length) dfltPoint
    if distSq p (closestPointOnSegment p p1 p2) < (1/100) ^ 2 then some i
    else findSegAux pts p (i + 1) fuel

/-- The `findSegment` helper of Geometry.splitPolygon (`-1` becomes `none`). -/
def findSegment (pts : List Point) (p : Point) : Option Nat :=
  findSegAux pts p 0 pts.length

/-- One `while (curr !== stop)` walk of Geometry.splitPolygon, collecting
`pts[curr]` and stepping `curr = (curr + 1) % n`.  The JS loop pushes at most
`n - 1` vertices (`curr` and `stop` are distinct indices below `n`), so fuel
`n` reproduces it exactly. -/
def walkAux (pts : List Point) (stop : Nat) : Nat → Nat → List Point
  | _, 0 => []
  | curr, fuel + 1 =>
    if curr = stop then []
    else pts.getD curr dfltPoint :: walkAux pts stop ((curr + 1) % pts.length) fuel

/-- Geometry.splitPolygon: split a closed polygon along the chord
`cutStart-cutEnd`, returning the two loops, or `null` when a cut point
matches no edge or both match the same edge. -/
def splitPolygon (pts : List Point) (cutStart cutEnd : Point) :
    Option (List Point × List Point) :=
  match findSegment pts cutStart, findSegment pts cutEnd with
  | some idx1, some idx2 =>
    if idx1 = idx2 then none
    else
      let n := pts.length
      let part1 := cutStart :: (walkAux pts ((idx2 + 1) % n) ((idx1 + 1) % n) n ++ [cutEnd])
      let part2 := cutEnd :: (walkAux pts ((idx1 + 1) % n) ((idx2 + 1) % n) n ++ [cutStart])
      some (part1, part2)
  | _, _ => none

end Geometry

/-- The convex quadrilateral `[(0,0),(10,0),(10,10),(0,10)]` of claim C1. -/
def c1Square : List Point :=
  [{ x := 0, y := 0 }, { x := 10, y := 0 }, { x := 10, y := 10 }, { x := 0, y := 10 }]

/-- C1: cutting the 10x10 square with the vertical chord `(5,0)-(5,10)`
returns exactly two loops; the first holds the two right-hand corners plus
both cut points, the second the two left-hand corners plus both cut points
(4 vertices each), and the two shoelace areas sum to the original area 100. -/
theorem splitPolygon_square_partition :
    Geometry.splitPolygon c1Square { x := 5, y := 0 } { x := 5, y := 10 } =
      some ([{ x := 5, y := 0 }, { x := 10, y := 0 }, { x := 10, y := 10 },
             { x := 5, y := 10 }],
            [{ x := 5, y := 10 }, { x := 0, y := 10 }, { x := 0, y := 0 },
             { x := 5, y := 0 }]) ∧
    Geometry.calculateArea
        [{ x := 5, y := 0 }, { x := 10, y := 0 }, { x := 10, y := 10 },
         { x := 5, y := 10 }] 1 +
      Geometry.calculateArea
        [{ x := 5, y := 10 }, { x := 0, y := 10 }, { x := 0, y := 0 },
         { x := 5, y := 0 }] 1 =
      Geometry.calculateArea c1Square 1 ∧
    Geometry.calculateArea c1Square 1 = 100 := by
  norm_num [Geometry.splitPolygon, Geometry.findSegment, Geometry.findSegAux,
    Geometry.walkAux, Geometry.distSq, Geometry.closestPointOnSegment,
    Geometry.calculateArea, c1Square, List.range_succ]

/-- Decimal digit character of `n` (used to model JS number-to-string). -/
def digitChar : Nat → Char
  | 0 => '0' | 1 => '1' | 2 => '2' | 3 => '3' | 4 => '4'
  | 5 => '5' | 6 => '6' | 7 => '7' | 8 => '8' | _ => '9'

/-- Fuel-driven decimal printer (structural recursion so that the kernel can
evaluate it; the fuel is an upper bound on the number of digits). -/
def natToCharsAux : Nat → Nat → List Char
  | 0, _ => []
  | fuel + 1, n =>
    if n < 10 then [digitChar n]
    else natToCharsAux fuel (n / 10) ++ [digitChar (n % 10)]

/-- JS decimal rendering of a natural number (`${n}`). -/
def natToChars (n : Nat) : List Char := natToCharsAux (n + 1) n

/-- The JS string `EDGE_<i>`. -/
def edgeKey (i : Nat) : List Char := edgePre ++ natToChars i

/-- The empty `{tenons: [], cutouts: []}` face entry. -/
def emptyFace : FaceEntry := { tenons := [], cutouts := [] }

/-- The JS string `Part <n>`. -/
def partName (n : Nat) : List Char := ['P','a','r','t',' '] ++ natToChars n

/-- The states of the drawing state machine (`ui.drawState`). -/
inductive DrawState where
  | IDLE
  | START_SHAPE
  | DRAWING_LINE
deriving DecidableEq

/-- A `{start, end}` segment (`end` is a Lean keyword, hence `endp`). -/
structure TempLine where
  start : Point
  endp : Point
deriving DecidableEq

/-- A compass direction record `{x, y, r}` as stored in
`highlightedDirection` / `selectedDirection`. -/
structure HDir where
  x : ℚ
  y : ℚ
  r : ℚ
deriving DecidableEq

/-- The transient `ui.activeDrawing` record. -/
structure ActiveDrawing where
  points : List Point
  tempLine : Option TempLine := none
  selectedDirection : Option HDir := none
  highlightedDirection : Option HDir := none
  snapTarget : Option Point := none
  alignmentGuide : Option TempLine := none
deriving DecidableEq

/-- The `STATE.ui` record (the fields the drawing operations touch). -/
structure UIState where
  drawState : DrawState
  activeDrawing : ActiveDrawing
  view : View
deriving DecidableEq

/-- The `STATE.document` record (the fields the drawing operations touch). -/
structure DocState where
  shapes : List Shape
deriving DecidableEq

/-- The global `STATE` singleton, passed explicitly. -/
structure AppState where
  ui : UIState
  document : DocState
deriving DecidableEq

namespace ShapeModel

/-- ShapeModel.create (core/model.js).  The random id `Math.random()...` is
passed in as the `id` parameter; the `hypot` parameter feeds
`recalculateSideLengths` (see the file comment).  `faceData` is FRONT, BACK,
then one `EDGE_<i>` entry per point index, in insertion order. -/
def create (hypot : ℚ → ℚ → ℚ) (id : List Char) (points : List Point)
    (name : List Char) : Shape :=
  { id := id
    name := name
    points := Geometry.recalculateSideLengths hypot points SCALE_PIXELS_PER_INCH
    closed := true
    thickness := DEFAULT_THICKNESS
    activeFace := frontStr
    faceData := (frontStr, emptyFace) :: (backStr, emptyFace) ::
      (List.range points.length).map (fun i => (edgeKey i, emptyFace))
    transform3D := ⟨⟨0, 0, 0⟩, ⟨0, 0, 0⟩⟩ }

/-- JS property assignment `obj[k] = v` on an association list: replaces the
value of an existing key in place, appends otherwise. -/
def setKey (l : List (List Char × FaceEntry)) (k : List Char) (v : FaceEntry) :
    List (List Char × FaceEntry) :=
  if (l.lookup k).isSome then l.map (fun kv => if kv.1 = k then (k, v) else kv)
  else l ++ [(k, v)]

/-- ShapeModel.fromParent (core/model.js): create from the new points with
the parent's name, take the parent's thickness, and copy (structuredClone,
i.e. value copy) the parent's FRONT/BACK entries when present. -/
def fromParent (hypot : ℚ → ℚ → ℚ) (id : List Char) (parent : Shape)
    (newPoints : List Point) : Shape :=
  let s0 := create hypot id newPoints parent.name
  let s1 := { s0 with thickness := parent.thickness }
  let s2 := match parent.faceData.lookup frontStr with
    | some e => { s1 with faceData := setKey s1.faceData frontStr e }
    | none => s1
  match parent.faceData.lookup backStr with
    | some e => { s2 with faceData := setKey s2.faceData backStr e }
    | none => s2

end ShapeModel

namespace DrawingOp

/-- One snap tier `{inc, weight}` of the adaptive multi-tier snapping. -/
structure Tier where
  inc : ℚ
  weight : ℚ
deriving DecidableEq

/-- The tier table of DrawingOp.updatePreview: whole, half, quarter, eighth
inch with weights 1.0, 0.8, 0.6, 0.4. -/
def snapTiers : List Tier :=
  [{ inc := 1, weight := 1 }, { inc := 0.5, weight := 0.8 },
   { inc := 0.25, weight := 0.6 }, { inc := 0.125, weight := 0.4 }]

/-- The `for (const tier of tiers)` loop of updatePreview: `lenInches` and
`pixelScale` are fixed; the first tier whose on-screen distance to the
nearest multiple is below `min(snapPx*weight, 0.4*inc*pixelScale)` rewrites
`len` to `nearest * scale` and breaks; otherwise `len` is unchanged. -/
def applyTierSnap (lenInches pixelScale len : ℚ) : List Tier → ℚ
  | [] => len
  | t :: rest =>
    let nearest := (jsRound (lenInches / t.inc) : ℚ) * t.inc
    let distInPixels := |lenInches - nearest| * pixelScale
    let maxAllowedRadius := (t.inc * pixelScale) * 0.4
    let threshold := min (SNAP_RADIUS_SCREEN_PX * t.weight) maxAllowedRadius
    if distInPixels < threshold then nearest * SCALE_PIXELS_PER_INCH
    else applyTierSnap lenInches pixelScale len rest

/-- The IDLE transition of DrawingOp.handleDrawClick: the clicked point
becomes the sole point and the state moves to START_SHAPE. -/
def idleClickStep (mouseWorld : Point) (st : AppState) : AppState :=
  { st with ui := { st.ui with
      drawState := .START_SHAPE
      activeDrawing := { st.ui.activeDrawing with points := [mouseWorld] } } }

/-- DrawingOp.handleDrawClick (operations/drawing-op.js).  Returns the new
state and the shape the call returns (`null` = `none`).  The random id of a
finalized shape is the `newId` parameter.  In the START_SHAPE branch with no
highlighted direction the source sets `drawState = 'IDLE'` and recurses;
that recursive call takes exactly the IDLE branch, so it is inlined here as
`idleClickStep` to keep the definition total.  In the DRAWING_LINE branch a
`null` `tempLine` alongside a `null` `snapTarget` would make JS throw; it is
modelled with a default point and no claim exercises it. -/
def handleDrawClick (hypot : ℚ → ℚ → ℚ) (newId : List Char)
    (mouseWorld _mouseScreen : Point) (st : AppState) : AppState × Option Shape :=
  match st.ui.drawState with
  | .IDLE => (idleClickStep mouseWorld st, none)
  | .START_SHAPE =>
    match st.ui.activeDrawing.highlightedDirection with
    | some hd =>
      ({ st with ui := { st.ui with
            drawState := .DRAWING_LINE
            activeDrawing := { st.ui.activeDrawing with
              selectedDirection := some hd
              highlightedDirection := none } } }, none)
    | none =>
      (idleClickStep mouseWorld
        { st with ui := { st.ui with drawState := .IDLE } }, none)
  | .DRAWING_LINE =>
    let ad := st.ui.activeDrawing
    let activePt := ad.points.getLastD dfltPoint
    let target := match ad.snapTarget with
      | some t => t
      | none => (ad.tempLine.map TempLine.endp).getD dfltPoint
    let d := Geometry.dist hypot activePt target
    let activePt2 := { activePt with lengthToNext := some (d / SCALE_PIXELS_PER_INCH) }
    let pts2 := ad.points.dropLast ++ [activePt2]
    match ad.snapTarget with
    | some _ =>
      let newShape : Shape :=
        { id := newId
          name := partName (st.document.shapes.length + 1)
          points := Geometry.recalculateSideLengths hypot pts2 SCALE_PIXELS_PER_INCH
          closed := true
          thickness := DEFAULT_THICKNESS
          activeFace := frontStr
          faceData := (frontStr, emptyFace) :: (backStr, emptyFace) ::
            (List.range pts2.length).map (fun i => (edgeKey i, emptyFace))
          transform3D := ⟨⟨0, 0, 0⟩, ⟨0, 0, 0⟩⟩ }
      ({ st with
          document := { shapes := st.document.shapes ++ [newShape] }
          ui := { st.ui with
            drawState := .IDLE
            activeDrawing := { ad with
              points := []
              tempLine := none
              alignmentGuide := none
              selectedDirection := none
              snapTarget := none } } }, some newShape)
    | none =>
      ({ st with ui := { st.ui with
            drawState := .START_SHAPE
            activeDrawing := { ad with
              points := pts2 ++ [target]
              tempLine := none
              alignmentGuide := none
              selectedDirection := none
              snapTarget := none } } }, none)

/-- One compass arrow candidate; `r` is absent on the inner ring. -/
structure ArrowSpec where
  x : ℚ
  y : ℚ
  r : Option ℚ := none
deriving DecidableEq

/-- The 16 compass arrow candidates of updatePreview's START_SHAPE branch
(inner ring at 45-degree steps, outer ring at the 22.5-degree offsets with
radius `r2`). -/
def arrowGrid (r2 : ℚ) : List ArrowSpec :=
  [{ x := 0, y := -1 }, { x := 1, y := -1 }, { x := 1, y := 0 }, { x := 1, y := 1 },
   { x := 0, y := 1 }, { x := -1, y := 1 }, { x := -1, y := 0 }, { x := -1, y := -1 },
   { x := 0.38, y := -0.92, r := some r2 }, { x := 0.92, y := -0.38, r := some r2 },
   { x := 0.92, y := 0.38, r := some r2 }, { x := 0.38, y := 0.92, r := some r2 },
   { x := -0.38, y := 0.92, r := some r2 }, { x := -0.92, y := 0.38, r := some r2 },
   { x := -0.92, y := -0.38, r := some r2 }, { x := -0.38, y := -0.92, r := some r2 }]

/-- The `arrows.forEach` minimum search of the START_SHAPE preview: the
accumulator is `(closest, minDist)`, starting from `(null, Infinity)`
(modelled `(none, none)`). -/
def pickClosest (hypot : ℚ → ℚ → ℚ) (screenActive mouseScreen : Point)
    (arrows : List ArrowSpec) : Option HDir × Option ℚ :=
  arrows.foldl
    (fun acc vec =>
      let radius := jsOrQ (vec.r.getD 0) ARROW_GRID_RADIUS
      let norm := Geometry.normalize hypot vec.x vec.y
      let arrowPos : Point :=
        { x := screenActive.x + norm.1 * radius
          y := screenActive.y + norm.2 * radius
          lengthToNext := none }
      let d := Geometry.dist hypot mouseScreen arrowPos
      match acc.2 with
      | none => (some { x := vec.x, y := vec.y, r := radius }, some d)
      | some m =>
        if d < m then (some { x := vec.x, y := vec.y, r := radius }, some d)
        else acc)
    (none, none)

/-- DrawingOp.updatePreview (operations/drawing-op.js).  `hypot` supplies
every `Math.hypot` value (distances and normalisation); the loop-closure
guard `dist(mouseScreen, startScreen) < SNAP_RADIUS_SCREEN_PX` is embedded
as the equivalent squared comparison.  A `null` `selectedDirection` in the
DRAWING_LINE branch would make JS throw in `normalize`; it is modelled with
a zero direction and no claim exercises it (the state machine always sets it
before entering DRAWING_LINE). -/
def updatePreview (hypot : ℚ → ℚ → ℚ) (mouseWorld mouseScreen : Point)
    (st : AppState) : AppState :=
  let ad := st.ui.activeDrawing
  let pts := ad.points
  if pts.length = 0 then st
  else
    let activePt := pts.getLastD dfltPoint
    match st.ui.drawState with
    | .START_SHAPE =>
      let screenActive := Geometry.worldToScreen activePt st.ui.view
      let r2 := ARROW_GRID_RADIUS * 1.8
      let picked := pickClosest hypot screenActive mouseScreen (arrowGrid r2)
      let hd := match picked.2 with
        | some m => if m < 60 then picked.1 else none
        | none => none
      { st with ui := { st.ui with
          activeDrawing := { ad with highlightedDirection := hd } } }
    | .DRAWING_LINE =>
      let sd := ad.selectedDirection.getD { x := 0, y := 0, r := 0 }
      let dir := Geometry.normalize hypot sd.x sd.y
      let len0 := max 0 (Geometry.dot (mouseWorld.x - activePt.x)
        (mouseWorld.y - activePt.y) dir.1 dir.2)
      let pixelScale := SCALE_PIXELS_PER_INCH * st.ui.view.zoom
      let lenInches := len0 / SCALE_PIXELS_PER_INCH
      let len1 := applyTierSnap lenInches pixelScale len0 snapTiers
      let ad1 := { ad with snapTarget := (none : Option Point),
                           alignmentGuide := (none : Option TempLine) }
      let startPt := pts.headD dfltPoint
      let startScreen := Geometry.worldToScreen startPt st.ui.view
      if 2 < pts.length ∧
          Geometry.distSq mouseScreen startScreen < SNAP_RADIUS_SCREEN_PX ^ 2 then
        { st with ui := { st.ui with activeDrawing :=
            { ad1 with snapTarget := some startPt
                       tempLine := some { start := activePt, endp := startPt } } } }
      else
        let step1 :=
          if dir.1 ≠ 0 then
            let t := (startPt.x - activePt.x) / dir.1
            if 0 < t ∧ |(t - len1) * st.ui.view.zoom| < SNAP_RADIUS_SCREEN_PX then
              (t, some { start := startPt
                         endp := { x := activePt.x + dir.1 * t
                                   y := activePt.y + dir.2 * t
                                   lengthToNext := none } })
            else (len1, ad1.alignmentGuide)
          else (len1, ad1.alignmentGuide)
        let step2 :=
          if dir.2 ≠ 0 then
            let t := (startPt.y - activePt.y) / dir.2
            if 0 < t ∧ |(t - step1.1) * st.ui.view.zoom| < SNAP_RADIUS_SCREEN_PX then
              (t, some { start := startPt
                         endp := { x := activePt.x + dir.1 * t
                                   y := activePt.y + dir.2 * t
                                   lengthToNext := none } })
            else step1
          else step1
        let endPt : Point :=
          { x := activePt.x + dir.1 * step2.1
            y := activePt.y + dir.2 * step2.1
            lengthToNext := none }
        { st with ui := { st.ui with activeDrawing :=
            { ad1 with alignmentGuide := step2.2
                       tempLine := some { start := activePt, endp := endPt } } } }
    | .IDLE => st

end DrawingOp

/-- The snap condition of one tier, as stated in the spec: the on-screen
distance to the nearest multiple of the increment is strictly below
`min(SNAP_RADIUS_SCREEN_PX * weight, 0.4 * increment_in_pixels)`. -/
def tierQualifies (lenInches pixelScale : ℚ) (t : DrawingOp.Tier) : Prop :=
  |lenInches - (jsRound (lenInches / t.inc) : ℚ) * t.inc| * pixelScale <
    min (SNAP_RADIUS_SCREEN_PX * t.weight) (t.inc * pixelScale * 0.4)

instance (lenInches pixelScale : ℚ) (t : DrawingOp.Tier) :
    Decidable (tierQualifies lenInches pixelScale t) := by
  unfold tierQualifies; infer_instance

/-- The tier loop returns the snapped length of the first qualifying tier
(scanned in table order) and leaves `len` unchanged when no tier
qualifies. -/
theorem applyTierSnap_eq_find (li ps l0 : ℚ) (ts : List DrawingOp.Tier) :
    DrawingOp.applyTierSnap li ps l0 ts =
      match ts.find? (fun t => decide (tierQualifies li ps t)) with
      | some t => (jsRound (li / t.inc) : ℚ) * t.inc * SCALE_PIXELS_PER_INCH
      | none => l0 := by
  induction ts with
  | nil => simp [DrawingOp.applyTierSnap]
  | cons t rest ih =>
    by_cases h : tierQualifies li ps t
    · have h' := h
      unfold tierQualifies at h'
      simp [DrawingOp.applyTierSnap, List.find?, h, h']
    · have h' := h
      unfold tierQualifies at h'
      simp [DrawingOp.applyTierSnap, List.find?, h, h', ih]

/-- Mouse position of the C5 scenario: world `(100.05, 0)` (zoom 1, pan 0,
so the screen position coincides). -/
def c5Mouse : Point := { x := 100.05, y := 0 }

/-- DRAWING_LINE state of the C5 scenario: anchor `(0,0)`, committed
direction `(1,0)`, scale 10 px/in, zoom 1. -/
def c5State : AppState :=
  { ui := { drawState := .DRAWING_LINE
            activeDrawing := { points := [{ x := 0, y := 0 }]
                               selectedDirection := some { x := 1, y := 0, r := 40 } }
            view := { pan := { x := 0, y := 0 }, zoom := 1 } }
    document := { shapes := [] } }

/-- C5: the DRAWING_LINE preview snaps the projected length to the first
(largest-increment) tier of {1, 0.5, 0.25, 0.125} inch (weights 1.0, 0.8,
0.6, 0.4) whose on-screen distance to the nearest multiple is strictly below
`min(SNAP_RADIUS_SCREEN_PX * weight, 0.4 * increment_in_pixels)`; in
particular, at scale 10 px/in and zoom 1, a projected endpoint at world
`x = 100.05` from anchor `(0,0)` with direction `(1,0)` snaps to exactly
`100` (10 whole inches). -/
theorem adaptive_snap_first_tier (hypot : ℚ → ℚ → ℚ) (hh : hypot 1 0 = 1) :
    (∀ li ps l0 : ℚ,
      DrawingOp.applyTierSnap li ps l0 DrawingOp.snapTiers =
        match DrawingOp.snapTiers.find? (fun t => decide (tierQualifies li ps t)) with
        | some t => (jsRound (li / t.inc) : ℚ) * t.inc * SCALE_PIXELS_PER_INCH
        | none => l0) ∧
    (DrawingOp.updatePreview hypot c5Mouse c5Mouse c5State).ui.activeDrawing.tempLine =
      some { start := { x := 0, y := 0, lengthToNext := none }
             endp := { x := 100, y := 0, lengthToNext := none } } := by
  constructor
  · intro li ps l0
    exact applyTierSnap_eq_find li ps l0 DrawingOp.snapTiers
  · have habs : |(1 : ℚ)/200| = 1/200 := by
      rw [abs_of_pos]; norm_num
    norm_num [DrawingOp.updatePreview, DrawingOp.applyTierSnap,
      DrawingOp.snapTiers, Geometry.normalize, Geometry.dot, Geometry.distSq,
      Geometry.worldToScreen, jsOrQ, jsRound, c5Mouse, c5State,
      SNAP_RADIUS_SCREEN_PX, SCALE_PIXELS_PER_INCH, hh, min_def, habs]

/-- Witness for C5 with a concrete hypot function. -/
theorem adaptive_snap_first_tier_witness :
    (∀ li ps l0 : ℚ,
      DrawingOp.applyTierSnap li ps l0 DrawingOp.snapTiers =
        match DrawingOp.snapTiers.find? (fun t => decide (tierQualifies li ps t)) with
        | some t => (jsRound (li / t.inc) : ℚ) * t.inc * SCALE_PIXELS_PER_INCH
        | none => l0) ∧
    (DrawingOp.updatePreview (fun _ _ => 1) c5Mouse c5Mouse c5State).ui.activeDrawing.tempLine =
      some { start := { x := 0, y := 0, lengthToNext := none }
             endp := { x := 100, y := 0, lengthToNext := none } } :=
  adaptive_snap_first_tier (fun _ _ => 1) rfl

/-- C4: in DRAWING_LINE with fewer than 3 points, updatePreview never sets
`snapTarget` (the loop-closure snap can only activate with at least 3
points), whatever the cursor position. -/
theorem closure_snap_requires_three_points (hypot : ℚ → ℚ → ℚ)
    (mw ms : Point) (st : AppState)
    (h1 : st.ui.drawState = .DRAWING_LINE)
    (h2 : st.ui.activeDrawing.points ≠ [])
    (h3 : st.ui.activeDrawing.points.length < 3) :
    (DrawingOp.updatePreview hypot mw ms st).ui.activeDrawing.snapTarget = none := by
  have h0 : ¬ (st.ui.activeDrawing.points.length = 0) := by
    simpa [List.length_eq_zero] using h2
  have h4 : ¬ (2 < st.ui.activeDrawing.points.length) := by omega
  simp [DrawingOp.updatePreview, h1, h0, h4]

/-- Witness for C4: two points, cursor exactly on the first point. -/
theorem closure_snap_requires_three_points_witness :
    (DrawingOp.updatePreview (fun _ _ => 0)
        { x := 0, y := 0 } { x := 0, y := 0 }
        { ui := { drawState := .DRAWING_LINE
                  activeDrawing := { points := [{ x := 0, y := 0 }, { x := 30, y := 0 }]
                                     selectedDirection := some { x := 1, y := 0, r := 40 } }
                  view := { pan := { x := 0, y := 0 }, zoom := 1 } }
          document := { shapes := [] } }).ui.activeDrawing.snapTarget = none :=
  closure_snap_requires_three_points (fun _ _ => 0) _ _ _ rfl
    (List.cons_ne_nil _ _) (by decide)

/-- C6: a commit click in START_SHAPE with no highlighted direction performs
the reset-then-restart double effect: the state is again START_SHAPE, the
points list holds exactly the newly clicked point, and no shape is
emitted. -/
theorem start_shape_click_without_direction (hypot : ℚ → ℚ → ℚ)
    (newId : List Char) (mw ms : Point) (st : AppState)
    (h1 : st.ui.drawState = .START_SHAPE)
    (h2 : st.ui.activeDrawing.highlightedDirection = none) :
    (DrawingOp.handleDrawClick hypot newId mw ms st).1.ui.drawState = .START_SHAPE ∧
    (DrawingOp.handleDrawClick hypot newId mw ms st).1.ui.activeDrawing.points = [mw] ∧
    (DrawingOp.handleDrawClick hypot newId mw ms st).2 = none := by
  simp [DrawingOp.handleDrawClick, DrawingOp.idleClickStep, h1, h2]

/-- START_SHAPE state with no highlighted direction, for the C6 witness. -/
def c6State : AppState :=
  { ui := { drawState := .START_SHAPE
            activeDrawing := { points := [{ x := 1, y := 1 }]
                               highlightedDirection := none }
            view := { pan := { x := 0, y := 0 }, zoom := 1 } }
    document := { shapes := [] } }

/-- Witness for C6 at a concrete state. -/
theorem start_shape_click_without_direction_witness :
    (DrawingOp.handleDrawClick (fun _ _ => 0) ['i'] { x := 7, y := 8 }
        { x := 7, y := 8 } c6State).1.ui.drawState = .START_SHAPE ∧
    (DrawingOp.handleDrawClick (fun _ _ => 0) ['i'] { x := 7, y := 8 }
        { x := 7, y := 8 } c6State).1.ui.activeDrawing.points = [{ x := 7, y := 8 }] ∧
    (DrawingOp.handleDrawClick (fun _ _ => 0) ['i'] { x := 7, y := 8 }
        { x := 7, y := 8 } c6State).2 = none :=
  start_shape_click_without_direction (fun _ _ => 0) ['i'] _ _ c6State rfl rfl

/-- The keys of a `faceData` association list, in insertion order. -/
def faceKeys (fd : List (List Char × FaceEntry)) : List (List Char) :=
  fd.map Prod.fst

/-- The key set claim C9 requires: `FRONT`, `BACK`, then `EDGE_i` for every
`i` below the point count. -/
def expectedFaceKeys (n : Nat) : List (List Char) :=
  frontStr :: backStr :: (List.range n).map edgeKey

/-- Every edge key starts with `E`, so it differs from `FRONT`. -/
theorem edgeKey_ne_front (i : Nat) : edgeKey i ≠ frontStr := by
  simp [edgeKey, edgePre, frontStr]

/-- Every edge key starts with `E`, so it differs from `BACK`. -/
theorem edgeKey_ne_back (i : Nat) : edgeKey i ≠ backStr := by
  simp [edgeKey, edgePre, backStr]

/-- Association lookup hits a matching head pair. -/
theorem lookup_pair_cons_eq (k : List Char) (kv : List Char × FaceEntry)
    (t : List (List Char × FaceEntry)) (h : k = kv.1) :
    List.lookup k (kv :: t) = some kv.2 := by
  obtain ⟨a, b⟩ := kv
  simp only at h
  simp [List.lookup, h]

/-- Association lookup skips a non-matching head pair. -/
theorem lookup_pair_cons_ne (k : List Char) (kv : List Char × FaceEntry)
    (t : List (List Char × FaceEntry)) (h : k ≠ kv.1) :
    List.lookup k (kv :: t) = List.lookup k t := by
  obtain ⟨a, b⟩ := kv
  simp only at h
  simp [List.lookup, beq_false_of_ne h]

/-- Lookup in the `EDGE_i` block of a fresh `faceData`: a key present among
the mapped indices maps to the empty face entry, others to `none`. -/
theorem lookup_map_edge (k : List Char) (l : List Nat) :
    ((l.map (fun j => (edgeKey j, emptyFace))).lookup k) =
      if ∃ j ∈ l, k = edgeKey j then some emptyFace else none := by
  induction l with
  | nil => simp
  | cons j t ih =>
    by_cases h : k = edgeKey j
    · rw [List.map_cons, lookup_pair_cons_eq _ _ _ h]
      rw [if_pos ⟨j, List.mem_cons_self j t, h⟩]
    · rw [List.map_cons, lookup_pair_cons_ne _ _ _ h, ih]
      by_cases h2 : ∃ x ∈ t, k = edgeKey x
      · obtain ⟨x, hx, hkx⟩ := h2
        rw [if_pos ⟨x, hx, hkx⟩, if_pos ⟨x, List.mem_cons_of_mem j hx, hkx⟩]
      · rw [if_neg h2, if_neg ?_]
        rintro ⟨x, hx, hkx⟩
        rcases List.mem_cons.mp hx with hxj | hxt
        · exact h (hxj ▸ hkx)
        · exact h2 ⟨x, hxt, hkx⟩

/-- Lookup of the updated key after an in-place map update. -/
theorem lookup_mapUpdate_self (l : List (List Char × FaceEntry))
    (k : List Char) (v : FaceEntry) (h : (l.lookup k).isSome) :
    (l.map (fun kv => if kv.1 = k then (k, v) else kv)).lookup k = some v := by
  induction l with
  | nil => simp at h
  | cons kv t ih =>
    by_cases hkv : kv.1 = k
    · rw [List.map_cons, if_pos hkv]
      exact lookup_pair_cons_eq k (k, v) _ rfl
    · have hne : k ≠ kv.1 := fun hh => hkv hh.symm
      rw [List.map_cons, if_neg hkv, lookup_pair_cons_ne _ _ _ hne]
      apply ih
      rwa [lookup_pair_cons_ne _ _ _ hne] at h

/-- Lookup of a different key is unchanged by an in-place map update. -/
theorem lookup_mapUpdate_ne (l : List (List Char × FaceEntry))
    (k k' : List Char) (v : FaceEntry) (h : k' ≠ k) :
    (l.map (fun kv => if kv.1 = k then (k, v) else kv)).lookup k' = l.lookup k' := by
  induction l with
  | nil => simp
  | cons kv t ih =>
    by_cases hkv : kv.1 = k
    · rw [List.map_cons, if_pos hkv, lookup_pair_cons_ne _ _ _ h,
        lookup_pair_cons_ne _ _ _ (hkv ▸ h), ih]
    · by_cases hk' : k' = kv.1
      · rw [List.map_cons, if_neg hkv, lookup_pair_cons_eq _ _ _ hk',
          lookup_pair_cons_eq _ _ _ hk']
      · rw [List.map_cons, if_neg hkv, lookup_pair_cons_ne _ _ _ hk',
          lookup_pair_cons_ne _ _ _ hk', ih]

/-- Lookup of a different key is unchanged by appending a fresh pair. -/
theorem lookup_append_ne (l : List (List Char × FaceEntry))
    (k k' : List Char) (v : FaceEntry) (h : k' ≠ k) :
    ((l ++ [(k, v)]).lookup k') = l.lookup k' := by
  induction l with
  | nil => simp [List.lookup, beq_false_of_ne h]
  | cons kv t ih =>
    by_cases hk' : k' = kv.1
    · rw [List.cons_append, lookup_pair_cons_eq _ _ _ hk',
        lookup_pair_cons_eq _ _ _ hk']
    · rw [List.cons_append, lookup_pair_cons_ne _ _ _ hk',
        lookup_pair_cons_ne _ _ _ hk', ih]

/-- `setKey` with a fresh value does not disturb lookups of other keys. -/
theorem lookup_setKey_ne (l : List (List Char × FaceEntry)) (k k' : List Char)
    (v : FaceEntry) (h : k' ≠ k) :
    (ShapeModel.setKey l k v).lookup k' = l.lookup k' := by
  unfold ShapeModel.setKey
  by_cases hs : (l.lookup k).isSome
  · rw [if_pos hs, lookup_mapUpdate_ne _ _ _ _ h]
  · rw [if_neg hs, lookup_append_ne _ _ _ _ h]

/-- `setKey` on a present key makes its lookup return the new value. -/
theorem lookup_setKey_self (l : List (List Char × FaceEntry)) (k : List Char)
    (v : FaceEntry) (h : (l.lookup k).isSome) :
    (ShapeModel.setKey l k v).lookup k = some v := by
  unfold ShapeModel.setKey
  rw [if_pos h]
  exact lookup_mapUpdate_self _ _ _ h

/-- `setKey` on a present key leaves the key list untouched. -/
theorem faceKeys_setKey_of_mem (l : List (List Char × FaceEntry))
    (k : List Char) (v : FaceEntry) (h : (l.lookup k).isSome) :
    faceKeys (ShapeModel.setKey l k v) = faceKeys l := by
  unfold ShapeModel.setKey
  rw [if_pos h]
  unfold faceKeys
  rw [List.map_map]
  apply List.map_congr_left
  intro kv _
  by_cases hkv : kv.1 = k <;> simp [hkv]

/-- `recalculateSideLengths` never changes the number of points. -/
theorem length_recalculateSideLengths (hypot : ℚ → ℚ → ℚ)
    (pts : List Point) (scale : ℚ) :
    (Geometry.recalculateSideLengths hypot pts scale).length = pts.length := by
  unfold Geometry.recalculateSideLengths
  split <;> simp

/-- Lookup of `FRONT` in a freshly created shape. -/
theorem lookup_create_front (hypot : ℚ → ℚ → ℚ) (id : List Char)
    (pts : List Point) (name : List Char) :
    (ShapeModel.create hypot id pts name).faceData.lookup frontStr =
      some emptyFace := by
  simp [ShapeModel.create, List.lookup]

/-- Lookup of `BACK` in a freshly created shape. -/
theorem lookup_create_back (hypot : ℚ → ℚ → ℚ) (id : List Char)
    (pts : List Point) (name : List Char) :
    (ShapeModel.create hypot id pts name).faceData.lookup backStr =
      some emptyFace := by
  simp [ShapeModel.create, List.lookup, frontStr, backStr]

/-- Lookup of an in-range edge key in a freshly created shape. -/
theorem lookup_create_edge (hypot : ℚ → ℚ → ℚ) (id : List Char)
    (pts : List Point) (name : List Char) (i : Nat) (h : i < pts.length) :
    (ShapeModel.create hypot id pts name).faceData.lookup (edgeKey i) =
      some emptyFace := by
  rw [ShapeModel.create]
  simp only
  rw [lookup_pair_cons_ne _ _ _ (edgeKey_ne_front i),
    lookup_pair_cons_ne _ _ _ (edgeKey_ne_back i), lookup_map_edge]
  exact if_pos ⟨i, List.mem_range.mpr h, rfl⟩


/-- C7: a shape built by `ShapeModel.fromParent` carries the parent's name
and thickness, its `FRONT` and `BACK` entries equal the parent's (value
copy of `structuredClone`), and every `EDGE_i` entry for an index of the
replacement point list is freshly initialized to empty tenon and cutout
lists. -/
theorem fromParent_inherits (hypot : ℚ → ℚ → ℚ) (id : List Char)
    (parent : Shape) (newPoints : List Point) (eF eB : FaceEntry)
    (hF : parent.faceData.lookup frontStr = some eF)
    (hB : parent.faceData.lookup backStr = some eB) :
    (ShapeModel.fromParent hypot id parent newPoints).name = parent.name ∧
    (ShapeModel.fromParent hypot id parent newPoints).thickness = parent.thickness ∧
    (ShapeModel.fromParent hypot id parent newPoints).faceData.lookup frontStr =
      some eF ∧
    (ShapeModel.fromParent hypot id parent newPoints).faceData.lookup backStr =
      some eB ∧
    ∀ i, i < newPoints.length →
      (ShapeModel.fromParent hypot id parent newPoints).faceData.lookup (edgeKey i) =
        some emptyFace := by
  have hfb : frontStr ≠ backStr := by decide
  have hbf : backStr ≠ frontStr := by decide
  have hsomeF : ((ShapeModel.create hypot id newPoints parent.name).faceData.lookup
      frontStr).isSome := by rw [lookup_create_front]; rfl
  have hsomeB : ((ShapeModel.create hypot id newPoints parent.name).faceData.lookup
      backStr).isSome := by rw [lookup_create_back]; rfl
  have hfd : (ShapeModel.fromParent hypot id parent newPoints).faceData =
      ShapeModel.setKey (ShapeModel.setKey
        (ShapeModel.create hypot id newPoints parent.name).faceData frontStr eF)
        backStr eB := by
    simp only [ShapeModel.fromParent, hF, hB]
  have hnm : (ShapeModel.fromParent hypot id parent newPoints).name =
      (ShapeModel.create hypot id newPoints parent.name).name := by
    simp only [ShapeModel.fromParent, hF, hB]
  have hth : (ShapeModel.fromParent hypot id parent newPoints).thickness =
      parent.thickness := by
    simp only [ShapeModel.fromParent, hF, hB]
  refine ⟨?_, hth, ?_, ?_, ?_⟩
  · rw [hnm]; simp [ShapeModel.create]
  · rw [hfd, lookup_setKey_ne _ _ _ _ hfb, lookup_setKey_self _ _ _ hsomeF]
  · rw [hfd]
    apply lookup_setKey_self
    rw [lookup_setKey_ne _ _ _ _ hbf]
    exact hsomeB
  · intro i hi
    rw [hfd, lookup_setKey_ne _ _ _ _ (edgeKey_ne_back i),
      lookup_setKey_ne _ _ _ _ (edgeKey_ne_front i)]
    exact lookup_create_edge hypot id newPoints parent.name i hi

/-- Witness parent shape for C7, carrying FRONT/BACK joinery. -/
def witParent : Shape :=
  { id := ['p']
    name := ['B','o','a','r','d']
    points := [{ x := 0, y := 0 }, { x := 40, y := 0 }, { x := 40, y := 30 }]
    closed := true
    thickness := 2
    activeFace := frontStr
    faceData :=
      [(frontStr, { tenons := [{ x := 1, y := 1, w := 2, h := 1, depth := 2, inset := 0 }]
                    cutouts := [] }),
       (backStr, { tenons := [], cutouts := [{ x := 3, y := 0, w := 2, h := 1, depth := 1 }] })]
    transform3D := ⟨⟨0, 0, 0⟩, ⟨0, 0, 0⟩⟩ }

/-- Witness for C7: apply it to `witParent` and a two-point replacement
list. -/
theorem fromParent_inherits_witness :
    (ShapeModel.fromParent (fun _ _ => 0) ['q'] witParent
        [{ x := 0, y := 0 }, { x := 10, y := 0 }]).name = witParent.name ∧
    (ShapeModel.fromParent (fun _ _ => 0) ['q'] witParent
        [{ x := 0, y := 0 }, { x := 10, y := 0 }]).thickness = witParent.thickness ∧
    (ShapeModel.fromParent (fun _ _ => 0) ['q'] witParent
        [{ x := 0, y := 0 }, { x := 10, y := 0 }]).faceData.lookup frontStr =
      some { tenons := [{ x := 1, y := 1, w := 2, h := 1, depth := 2, inset := 0 }]
             cutouts := [] } ∧
    (ShapeModel.fromParent (fun _ _ => 0) ['q'] witParent
        [{ x := 0, y := 0 }, { x := 10, y := 0 }]).faceData.lookup backStr =
      some { tenons := []
             cutouts := [{ x := 3, y := 0, w := 2, h := 1, depth := 1 }] } ∧
    ∀ i, i < (([{ x := 0, y := 0 }, { x := 10, y := 0 }] : List Point)).length →
      (ShapeModel.fromParent (fun _ _ => 0) ['q'] witParent
          [{ x := 0, y := 0 }, { x := 10, y := 0 }]).faceData.lookup (edgeKey i) =
        some emptyFace :=
  fromParent_inherits (fun _ _ => 0) ['q'] witParent
    [{ x := 0, y := 0 }, { x := 10, y := 0 }] _ _ rfl rfl

/-- C9: every shape returned by `ShapeModel.create`, by
`ShapeModel.fromParent`, or by the drawing state machine's loop-closure
finalization has `faceData` keys exactly `FRONT`, `BACK`, and `EDGE_i` for
every point index `i` (each key mapping to tenon/cutout lists by
construction of `FaceEntry`). -/
theorem faceData_keys_complete :
    (∀ (hypot : ℚ → ℚ → ℚ) (id : List Char) (pts : List Point) (name : List Char),
      faceKeys (ShapeModel.create hypot id pts name).faceData =
        expectedFaceKeys (ShapeModel.create hypot id pts name).points.length) ∧
    (∀ (hypot : ℚ → ℚ → ℚ) (id : List Char) (parent : Shape) (newPoints : List Point),
      faceKeys (ShapeModel.fromParent hypot id parent newPoints).faceData =
        expectedFaceKeys (ShapeModel.fromParent hypot id parent newPoints).points.length) ∧
    (∀ (hypot : ℚ → ℚ → ℚ) (newId : List Char) (mw ms : Point) (st : AppState),
      match (DrawingOp.handleDrawClick hypot newId mw ms st).2 with
      | some s => faceKeys s.faceData = expectedFaceKeys s.points.length
      | none => True) := by
  have hcreate : ∀ (hypot : ℚ → ℚ → ℚ) (id : List Char) (pts : List Point)
      (name : List Char),
      faceKeys (ShapeModel.create hypot id pts name).faceData =
        expectedFaceKeys (ShapeModel.create hypot id pts name).points.length := by
    intro hypot id pts name
    simp [faceKeys, ShapeModel.create, expectedFaceKeys, List.map_map,
      length_recalculateSideLengths, Function.comp]
  refine ⟨hcreate, ?_, ?_⟩
  · intro hypot id parent newPoints
    have hsomeF : ((ShapeModel.create hypot id newPoints parent.name).faceData.lookup
        frontStr).isSome := by rw [lookup_create_front]; rfl
    have hsomeB : ((ShapeModel.create hypot id newPoints parent.name).faceData.lookup
        backStr).isSome := by rw [lookup_create_back]; rfl
    have hbf : backStr ≠ frontStr := by decide
    have hpts : (ShapeModel.fromParent hypot id parent newPoints).points =
        (ShapeModel.create hypot id newPoints parent.name).points := by
      cases hF : parent.faceData.lookup frontStr <;>
        cases hB : parent.faceData.lookup backStr <;>
          simp only [ShapeModel.fromParent, hF, hB]
    rw [hpts]
    cases hF : parent.faceData.lookup frontStr with
    | none =>
      cases hB : parent.faceData.lookup backStr with
      | none =>
        have hfd : (ShapeModel.fromParent hypot id parent newPoints).faceData =
            (ShapeModel.create hypot id newPoints parent.name).faceData := by
          simp only [ShapeModel.fromParent, hF, hB]
        rw [hfd]; exact hcreate _ _ _ _
      | some eB =>
        have hfd : (ShapeModel.fromParent hypot id parent newPoints).faceData =
            ShapeModel.setKey
              (ShapeModel.create hypot id newPoints parent.name).faceData
              backStr eB := by
          simp only [ShapeModel.fromParent, hF, hB]
        rw [hfd, faceKeys_setKey_of_mem _ _ _ hsomeB]
        exact hcreate _ _ _ _
    | some eF =>
      cases hB : parent.faceData.lookup backStr with
      | none =>
        have hfd : (ShapeModel.fromParent hypot id parent newPoints).faceData =
            ShapeModel.setKey
              (ShapeModel.create hypot id newPoints parent.name).faceData
              frontStr eF := by
          simp only [ShapeModel.fromParent, hF, hB]
        rw [hfd, faceKeys_setKey_of_mem _ _ _ hsomeF]
        exact hcreate _ _ _ _
      | some eB =>
        have hfd : (ShapeModel.fromParent hypot id parent newPoints).faceData =
            ShapeModel.setKey (ShapeModel.setKey
              (ShapeModel.create hypot id newPoints parent.name).faceData
              frontStr eF) backStr eB := by
          simp only [ShapeModel.fromParent, hF, hB]
        have hsomeB2 : ((ShapeModel.setKey
            (ShapeModel.create hypot id newPoints parent.name).faceData
            frontStr eF).lookup backStr).isSome := by
          rw [lookup_setKey_ne _ _ _ _ hbf]; exact hsomeB
        rw [hfd, faceKeys_setKey_of_mem _ _ _ hsomeB2,
          faceKeys_setKey_of_mem _ _ _ hsomeF]
        exact hcreate _ _ _ _
  · intro hypot newId mw ms st
    cases hds : st.ui.drawState with
    | IDLE => simp [DrawingOp.handleDrawClick, hds]
    | START_SHAPE =>
      cases hhd : st.ui.activeDrawing.highlightedDirection with
      | none => simp [DrawingOp.handleDrawClick, hds, hhd]
      | some hd => simp [DrawingOp.handleDrawClick, hds, hhd]
    | DRAWING_LINE =>
      cases hsn : st.ui.activeDrawing.snapTarget with
      | none => simp [DrawingOp.handleDrawClick, hds, hsn]
      | some tgt =>
        simp [DrawingOp.handleDrawClick, hds, hsn, faceKeys, expectedFaceKeys,
          List.map_map, length_recalculateSideLengths, Function.comp]

namespace BooleanOps

/-- An axis-aligned bounding box. -/
structure Bounds where
  minX : ℚ
  minY : ℚ
  maxX : ℚ
  maxY : ℚ
deriving DecidableEq

/-- Bounding box of a coordinate ring (fold of min/max over the vertices). -/
def ringBounds (ring : List (ℚ × ℚ)) : Bounds :=
  match ring with
  | [] => ⟨0, 0, 0, 0⟩
  | q :: rest => rest.foldl
      (fun b p => ⟨min b.minX p.1, min b.minY p.2, max b.maxX p.1, max b.maxY p.2⟩)
      ⟨q.1, q.2, q.1, q.2⟩

/-- Disjointness of two bounding boxes (the negation of the AABB overlap
test of `BooleanOps.checkIntersection`). -/
def boundsDisjoint (a b : Bounds) : Prop :=
  a.maxX < b.minX ∨ b.maxX < a.minX ∨ a.maxY < b.minY ∨ b.maxY < a.minY

instance (a b : Bounds) : Decidable (boundsDisjoint a b) := by
  unfold boundsDisjoint; infer_instance

/-- BooleanOps.toPolygon: the shape's points as a GeoJSON-style polygon,
closing the ring by repeating the first vertex when it differs from the
last. -/
def toPolygon (shape : Shape) : List (List (ℚ × ℚ)) :=
  let ring := shape.points.map (fun p => (p.x, p.y))
  if 0 < ring.length ∧ ring.headD (0, 0) ≠ ring.getLastD (0, 0) then
    [ring ++ [ring.headD (0, 0)]]
  else [ring]

/-- BooleanOps.fromPolygon: the first (outer) ring without its closing
vertex, as internal points. -/
def fromPolygon (poly : List (List (ℚ × ℚ))) : List Point :=
  if poly = [] ∨ poly.headD [] = [] then []
  else
    let ring := poly.headD []
    (ring.take (ring.length - 1)).map
      (fun q => { x := q.1, y := q.2, lengthToNext := none })

/-- Modelled from the spec: the `difference` primitive of the external
`polygon-clipping` library, which the repository imports from a CDN
(`https://esm.sh/polygon-clipping`) and whose code is not part of the
repository.  Spec section 4.4 describes it as standard polygon difference on
GeoJSON-style ring arrays returning a multi-polygon, empty when the
operation yields no geometry.  Only the behaviour the claims exercise is
modelled: when the two polygons' bounding boxes are disjoint the subtrahend
removes nothing and the difference is the minuend unchanged, as a single
polygon; every other input is modelled as the empty multi-polygon (the
fully-contained case of the spec; partial overlaps are exercised by no
claim). -/
def pcDifference (polyA polyB : List (List (ℚ × ℚ))) :
    List (List (List (ℚ × ℚ))) :=
  if boundsDisjoint (ringBounds (polyA.headD [])) (ringBounds (polyB.headD []))
  then [polyA]
  else []

/-- BooleanOps.subtract (A - B), parameterised by the external clipping
primitive exactly as the source delegates to `polygonClipping.difference`;
`none` models the `null` return for an empty result. -/
def subtract
    (difference : List (List (ℚ × ℚ)) → List (List (ℚ × ℚ)) →
      List (List (List (ℚ × ℚ))))
    (shapeA shapeB : Shape) : Option (List Point) :=
  let polyA := toPolygon shapeA
  let polyB := toPolygon shapeB
  let result := difference polyA polyB
  if result = [] then none
  else some (fromPolygon (result.headD []))

end BooleanOps

/-- The 10x10 square at the origin, as a Shape (inputs of the C3
counterexample). -/
def c3ShapeA : Shape :=
  { id := ['A']
    name := ['A']
    points := [{ x := 0, y := 0 }, { x := 10, y := 0 }, { x := 10, y := 10 },
               { x := 0, y := 10 }]
    closed := true
    thickness := 1
    activeFace := frontStr
    faceData := []
    transform3D := ⟨⟨0, 0, 0⟩, ⟨0, 0, 0⟩⟩ }

/-- A 10x10 square at (50,50), fully outside `c3ShapeA`'s bounds. -/
def c3ShapeB : Shape :=
  { id := ['B']
    name := ['B']
    points := [{ x := 50, y := 50 }, { x := 60, y := 50 }, { x := 60, y := 60 },
               { x := 50, y := 60 }]
    closed := true
    thickness := 1
    activeFace := frontStr
    faceData := []
    transform3D := ⟨⟨0, 0, 0⟩, ⟨0, 0, 0⟩⟩ }

/-- The closed ring `toPolygon` builds for `c3ShapeA`. -/
theorem c3_toPolygonA_eq : BooleanOps.toPolygon c3ShapeA =
    [[((0 : ℚ), (0 : ℚ)), (10, 0), (10, 10), (0, 10), (0, 0)]] := by
  rw [BooleanOps.toPolygon, if_pos]
  · simp [c3ShapeA]
  · refine ⟨by simp [c3ShapeA], ?_⟩
    simp [c3ShapeA, List.getLastD, Prod.ext_iff]

/-- The closed ring `toPolygon` builds for `c3ShapeB`. -/
theorem c3_toPolygonB_eq : BooleanOps.toPolygon c3ShapeB =
    [[((50 : ℚ), (50 : ℚ)), (60, 50), (60, 60), (50, 60), (50, 50)]] := by
  rw [BooleanOps.toPolygon, if_pos]
  · simp [c3ShapeB]
  · refine ⟨by simp [c3ShapeB], ?_⟩
    simp [c3ShapeB, List.getLastD, Prod.ext_iff]

/-- The bounding boxes of `c3ShapeA` and `c3ShapeB` are disjoint. -/
theorem c3_disjoint_fact : BooleanOps.boundsDisjoint
    (BooleanOps.ringBounds ((BooleanOps.toPolygon c3ShapeA).headD []))
    (BooleanOps.ringBounds ((BooleanOps.toPolygon c3ShapeB).headD [])) := by
  rw [c3_toPolygonA_eq, c3_toPolygonB_eq]
  norm_num [BooleanOps.boundsDisjoint, BooleanOps.ringBounds, min_def, max_def]

/-- Counterexample to C3: for the fully disjoint squares `c3ShapeA` and
`c3ShapeB` (bounding boxes disjoint, first conjunct), `subtract` does NOT
return `null`: the difference is the whole minuend, so it returns
`c3ShapeA`'s point list. -/
theorem subtract_disjoint_not_null :
    BooleanOps.boundsDisjoint
      (BooleanOps.ringBounds ((BooleanOps.toPolygon c3ShapeA).headD []))
      (BooleanOps.ringBounds ((BooleanOps.toPolygon c3ShapeB).headD [])) ∧
    BooleanOps.subtract BooleanOps.pcDifference c3ShapeA c3ShapeB =
      some [{ x := 0, y := 0 }, { x := 10, y := 0 }, { x := 10, y := 10 },
            { x := 0, y := 10 }] ∧
    BooleanOps.subtract BooleanOps.pcDifference c3ShapeA c3ShapeB ≠ none := by
  have h2 : BooleanOps.subtract BooleanOps.pcDifference c3ShapeA c3ShapeB =
      some [{ x := 0, y := 0 }, { x := 10, y := 0 }, { x := 10, y := 10 },
            { x := 0, y := 10 }] := by
    have hres : BooleanOps.pcDifference (BooleanOps.toPolygon c3ShapeA)
        (BooleanOps.toPolygon c3ShapeB) = [BooleanOps.toPolygon c3ShapeA] := by
      rw [BooleanOps.pcDifference, if_pos c3_disjoint_fact]
    simp only [BooleanOps.subtract]
    rw [hres, if_neg (by simp), List.headD_cons, c3_toPolygonA_eq]
    rw [BooleanOps.fromPolygon, if_neg (by simp)]
    norm_num [Prod.ext_iff]
  exact ⟨c3_disjoint_fact, h2, by rw [h2]; simp⟩

/-- Amended C3: for shapes whose bounding boxes are disjoint (and a
non-degenerate minuend ring), `subtract(A, B)` returns A's own point list
unchanged (non-null); `null` is returned only when the clipping result is
empty.  The functional embedding leaves both inputs untouched by
construction. -/
theorem subtract_disjoint_returns_minuend (shapeA shapeB : Shape)
    (hA : shapeA.points ≠ [])
    (hne : (shapeA.points.map fun p => (p.x, p.y)).headD (0, 0) ≠
           (shapeA.points.map fun p => (p.x, p.y)).getLastD (0, 0))
    (hdisj : BooleanOps.boundsDisjoint
      (BooleanOps.ringBounds ((BooleanOps.toPolygon shapeA).headD []))
      (BooleanOps.ringBounds ((BooleanOps.toPolygon shapeB).headD []))) :
    BooleanOps.subtract BooleanOps.pcDifference shapeA shapeB =
      some (shapeA.points.map
        (fun p => { x := p.x, y := p.y, lengthToNext := none })) := by
  have hring : shapeA.points.map (fun p => (p.x, p.y)) ≠ [] := by
    simpa using hA
  have h0 : 0 < (shapeA.points.map fun p => (p.x, p.y)).length :=
    List.length_pos.mpr hring
  have htp : BooleanOps.toPolygon shapeA =
      [shapeA.points.map (fun p => (p.x, p.y)) ++
        [(shapeA.points.map fun p => (p.x, p.y)).headD (0, 0)]] := by
    unfold BooleanOps.toPolygon
    rw [if_pos ⟨h0, hne⟩]
  have hres : BooleanOps.pcDifference (BooleanOps.toPolygon shapeA)
      (BooleanOps.toPolygon shapeB) = [BooleanOps.toPolygon shapeA] := by
    unfold BooleanOps.pcDifference
    rw [if_pos hdisj]
  have hfp : BooleanOps.fromPolygon
      [shapeA.points.map (fun p => (p.x, p.y)) ++
        [(shapeA.points.map fun p => (p.x, p.y)).headD (0, 0)]] =
      shapeA.points.map (fun p => { x := p.x, y := p.y, lengthToNext := none }) := by
    simp only [BooleanOps.fromPolygon, List.headD_cons]
    rw [if_neg (by simp)]
    rw [List.length_append, List.length_singleton, Nat.add_sub_cancel,
      List.take_left, List.map_map]
    rfl
  simp only [BooleanOps.subtract]
  rw [hres, if_neg (by simp), List.headD_cons, htp, hfp]

/-- Witness for the amended C3 at the concrete disjoint squares. -/
theorem subtract_disjoint_returns_minuend_witness :
    BooleanOps.subtract BooleanOps.pcDifference c3ShapeA c3ShapeB =
      some (c3ShapeA.points.map
        (fun p => { x := p.x, y := p.y, lengthToNext := none })) :=
  subtract_disjoint_returns_minuend c3ShapeA c3ShapeB (List.cons_ne_nil _ _)
    (by simp [c3ShapeA, List.getLastD, Prod.ext_iff]) c3_disjoint_fact

/-- The apostrophe character (feet marker in measurement strings). -/
def apostropheChar : Char := Char.ofNat 39

/-- JS whitespace class `\s` (restricted to the escapes the inputs can
contain). -/
def isSpaceChar (c : Char) : Bool :=
  c == ' ' || c == '\t' || c == '\n' || c == '\r'

/-- JS `String.prototype.trim`. -/
def trimChars (s : List Char) : List Char :=
  ((s.dropWhile isSpaceChar).reverse.dropWhile isSpaceChar).reverse

/-- Numeric value of a digit run, most significant first. -/
def digitsToNat (ds : List Char) : Nat :=
  ds.foldl (fun acc c => acc * 10 + (c.toNat - 48)) 0

/-- Match `(\d+)` at the head of the input: the digit run's value and the
remaining characters (`none` when the head is not a digit). -/
def takeDigits (s : List Char) : Option (Nat × List Char) :=
  let ds := s.takeWhile Char.isDigit
  if ds = [] then none
  else some (digitsToNat ds, s.dropWhile Char.isDigit)

/-- Match `\s*` at the head of the input. -/
def dropSpaces (s : List Char) : List Char := s.dropWhile isSpaceChar

/-- Match `"?$`: nothing or a single closing double quote. -/
def quoteEnd (s : List Char) : Prop := s = [] ∨ s = ['"']

instance (s : List Char) : Decidable (quoteEnd s) := by
  unfold quoteEnd; infer_instance

/-- Match `(\d+)\/(\d+)"?$`, returning numerator and denominator.  The digit
runs need no backtracking: shortening the first leaves a digit where `/` is
required, shortening the second leaves a digit where `"?$` is required. -/
def parseFracTail (s : List Char) : Option (Nat × Nat) :=
  match takeDigits s with
  | some (n, r1) =>
    match r1 with
    | c :: r2 =>
      if c = '/' then
        match takeDigits r2 with
        | some (d, r3) => if quoteEnd r3 then some (n, d) else none
        | none => none
      else none
    | [] => none
  | none => none

namespace Geometry

/-- Geometry.gcd from the source (`b === 0 ? a : gcd(b, a % b)`), made
structural with fuel; `b + 1` steps always suffice because the second
argument strictly decreases. -/
def gcdAux : Nat → Nat → Nat → Nat
  | 0, a, _ => a
  | fuel + 1, a, b => if b = 0 then a else gcdAux fuel b (a % b)

/-- Geometry.gcd (the fuel wrapper). -/
def gcd (a b : Nat) : Nat := gcdAux (b + 1) a b

/-- Geometry.formatInches: decimal inches to a feet-free inch/fraction
string.  `Math.floor`/`Math.round` become `Int.floor`-based operations, the
number-to-string interpolations become `natToChars` (the integer parts are
nonnegative on every path taken), and the final `.trim()` is `trimChars`. -/
def formatInches (val : ℚ) : List Char :=
  if val < 1/64 then ['0', '"']
  else
    let intInches : ℤ := ⌊val⌋
    let frac := val - (intInches : ℚ)
    if frac > 1/64 then
      let num := jsRound (frac * 16)
      if 0 < num then
        if num = 16 then natToChars (intInches + 1).toNat ++ ['"']
        else
          let div := gcd num.toNat 16
          trimChars (natToChars intInches.toNat ++
            [' '] ++ natToChars (num.toNat / div) ++
            ['/'] ++ natToChars (16 / div) ++ ['"'])
      else trimChars (natToChars intInches.toNat ++ ['"'])
    else trimChars (natToChars intInches.toNat ++ ['"'])

/-- One candidate of the feet regex's optional inch group `(\d+)?`: the
chosen digit prefix `a` is group 2, and the remainder must then match
`(?:\s*(\d+)\/(\d+))?"?$`. -/
def feetTryA (a r : List Char) : Option (Option Nat × Option (Nat × Nat)) :=
  match parseFracTail (dropSpaces r) with
  | some nd => some (some (digitsToNat a), some nd)
  | none => if quoteEnd r then some (some (digitsToNat a), none) else none

/-- Backtracking over the length of the inch group `(\d+)?`, longest first,
as a regex engine would (e.g. `1'23/4"` matches with inch `2` and fraction
`3/4`).  The fuel is the length of the digit run. -/
def feetAltAAux : Nat → List Char → List Char → Option (Option Nat × Option (Nat × Nat))
  | 0, _, _ => none
  | fuel + 1, a, r =>
    if a = [] then none
    else
      match feetTryA a r with
      | some res => some res
      | none => feetAltAAux fuel a.dropLast (a.getLastD ' ' :: r)

/-- All inch-group candidates in regex preference order. -/
def feetAltA (a r : List Char) : Option (Option Nat × Option (Nat × Nat)) :=
  feetAltAAux a.length a r

/-- Match `(?:\s*(\d+)\/(\d+))?"?$` (fraction group then optional quote). -/
def feetTailB (s : List Char) : Option (Option (Nat × Nat)) :=
  match parseFracTail (dropSpaces s) with
  | some nd => some (some nd)
  | none => if quoteEnd s then some none else none

/-- Match `(?:\s*(\d+)?(?:\s*(\d+)\/(\d+))?)?"?$`, the tail of the feet
regex after the apostrophe: inch group present (with backtracking), then
inch group absent, then the whole outer group absent. -/
def feetTailA (s : List Char) : Option (Option Nat × Option (Nat × Nat)) :=
  let s1 := dropSpaces s
  match feetAltA (s1.takeWhile Char.isDigit) (s1.dropWhile Char.isDigit) with
  | some res => some res
  | none =>
    match feetTailB s1 with
    | some b => some (none, b)
    | none => if quoteEnd s then some (none, none) else none

/-- The feet format `^(\d+)'(?:\s*(\d+)?(?:\s*(\d+)\/(\d+))?)?"?$`:
`feet' inches num/den"`, with `feetMatch[2] || 0`, `feetMatch[3] || 0` and
`feetMatch[4] || 1` defaults. -/
def feetMatchFn (s : List Char) : Option ℚ :=
  match takeDigits s with
  | some (ft, rest) =>
    match rest with
    | c :: rest2 =>
      if c = apostropheChar then
        match feetTailA rest2 with
        | some (oInch, oFrac) =>
          some ((ft : ℚ) * 12 + ((oInch.getD 0 : ℕ) : ℚ) +
            (((oFrac.map Prod.fst).getD 0 : ℕ) : ℚ) /
              (((oFrac.map Prod.snd).getD 1 : ℕ) : ℚ))
        | none => none
      else none
    | [] => none
  | none => none

/-- The mixed format `^(\d+)\s+(\d+)\/(\d+)"?$`: `inches num/den"`. -/
def mixedMatchFn (s : List Char) : Option ℚ :=
  match takeDigits s with
  | some (inch, r1) =>
    if r1 ≠ [] ∧ isSpaceChar (r1.headD ' ') = true then
      match parseFracTail (dropSpaces r1) with
      | some (num, den) => some ((inch : ℚ) + (num : ℚ) / (den : ℚ))
      | none => none
    else none
  | none => none

/-- The pure fraction format `^(\d+)\/(\d+)"?$`. -/
def fractionMatchFn (s : List Char) : Option ℚ :=
  match parseFracTail s with
  | some (num, den) => some ((num : ℚ) / (den : ℚ))
  | none => none

/-- The plain format `^(\d+(?:\.\d+)?)"?$` with `parseFloat` semantics. -/
def plainMatchFn (s : List Char) : Option ℚ :=
  match takeDigits s with
  | some (ip, r1) =>
    match r1 with
    | c :: r2 =>
      if c = '.' then
        let ds := r2.takeWhile Char.isDigit
        if ds = [] then none
        else if quoteEnd (r2.dropWhile Char.isDigit) then
          some ((ip : ℚ) + (digitsToNat ds : ℚ) / 10 ^ ds.length)
        else none
      else if quoteEnd r1 then some (ip : ℚ) else none
    | [] => some (ip : ℚ)
  | none => none

/-- Geometry.parseMeasurement: trim, reject the empty string, then try the
feet, mixed, fraction and plain formats in source order; `none` models the
`null` no-match result. -/
def parseMeasurement (s0 : List Char) : Option ℚ :=
  let s := trimChars s0
  if s = [] then none
  else match feetMatchFn s with
  | some v => some v
  | none =>
    match mixedMatchFn s with
    | some v => some v
    | none =>
      match fractionMatchFn s with
      | some v => some v
      | none =>
        match plainMatchFn s with
        | some v => some v
        | none => none

end Geometry

/-- Every output of `digitChar` is a decimal digit character. -/
theorem digitChar_isDigit (d : Nat) : (digitChar d).isDigit = true := by
  unfold digitChar
  split <;> decide

/-- On inputs below 10, `digitChar` inverts to the digit value. -/
theorem digitChar_toNat (d : Nat) (h : d < 10) : (digitChar d).toNat - 48 = d := by
  interval_cases d <;> decide

/-- The decimal printer ignores the fuel as long as it dominates the
input. -/
theorem natToCharsAux_congr : ∀ (f f' n : Nat), n < f → n < f' →
    natToCharsAux f n = natToCharsAux f' n := by
  intro f
  induction f with
  | zero => intro f' n h _; omega
  | succ f ih =>
    intro f' n h h'
    cases f' with
    | zero => omega
    | succ f'' =>
      simp only [natToCharsAux]
      by_cases h10 : n < 10
      · simp [h10]
      · have hd : n / 10 < n := Nat.div_lt_self (by omega) (by omega)
        simp only [h10, if_false]
        rw [ih f'' (n / 10) (by omega) (by omega)]

/-- Unfolding equation of `natToChars` without fuel. -/
theorem natToChars_eq (n : Nat) : natToChars n =
    if n < 10 then [digitChar n]
    else natToChars (n / 10) ++ [digitChar (n % 10)] := by
  unfold natToChars
  simp only [natToCharsAux]
  by_cases h10 : n < 10
  · simp [h10]
  · have hd : n / 10 < n := Nat.div_lt_self (by omega) (by omega)
    simp only [h10, if_false]
    rw [natToCharsAux_congr n (n / 10 + 1) (n / 10) (by omega) (by omega)]
    simp only [natToCharsAux]

/-- The decimal rendering of a natural number is never empty. -/
theorem natToChars_ne_nil (n : Nat) : natToChars n ≠ [] := by
  rw [natToChars_eq]
  split <;> simp

/-- The decimal rendering consists of digit characters only. -/
theorem natToChars_digits (n : Nat) : ∀ c ∈ natToChars n, c.isDigit = true := by
  induction n using Nat.strong_induction_on with
  | _ n ih =>
    rw [natToChars_eq]
    by_cases h10 : n < 10
    · simp [h10, digitChar_isDigit]
    · have hd : n / 10 < n := Nat.div_lt_self (by omega) (by omega)
      simp only [h10, if_false, List.mem_append, List.mem_singleton]
      rintro c (hc | hc)
      · exact ih (n / 10) hd c hc
      · subst hc; exact digitChar_isDigit _
/-- Parsing the decimal rendering recovers the number. -/
theorem digitsToNat_natToChars (n : Nat) : digitsToNat (natToChars n) = n := by
  induction n using Nat.strong_induction_on with
  | _ n ih =>
    rw [natToChars_eq]
    by_cases h10 : n < 10
    · simp only [h10, if_true, digitsToNat, List.foldl_cons, List.foldl_nil]
      rw [Nat.zero_mul, Nat.zero_add]
      exact digitChar_toNat n h10
    · have hd : n / 10 < n := Nat.div_lt_self (by omega) (by omega)
      simp only [h10, if_false]
      unfold digitsToNat
      rw [List.foldl_append]
      simp only [List.foldl_cons, List.foldl_nil]
      rw [show (natToChars (n / 10)).foldl
          (fun acc c => acc * 10 + (c.toNat - 48)) 0 =
          digitsToNat (natToChars (n / 10)) from rfl]
      rw [ih (n / 10) hd, digitChar_toNat (n % 10) (Nat.mod_lt _ (by omega))]
      omega

/-- `takeWhile`/`dropWhile` with a digit prefix and a non-digit
continuation. -/
theorem takeWhile_digits_append (xs rest : List Char)
    (hxs : ∀ c ∈ xs, c.isDigit = true)
    (hrest : ∀ c ∈ rest.take 1, c.isDigit = false) :
    (xs ++ rest).takeWhile Char.isDigit = xs ∧
    (xs ++ rest).dropWhile Char.isDigit = rest := by
  induction xs with
  | nil =>
    cases rest with
    | nil => simp
    | cons c t =>
      have hc : c.isDigit = false := hrest c (by simp)
      simp [List.takeWhile_cons, List.dropWhile_cons, hc]
  | cons x xs ih =>
    have hx : x.isDigit = true := hxs x (by simp)
    have ihh := ih (fun c hc => hxs c (by simp [hc]))
    simp [List.takeWhile_cons, List.dropWhile_cons, hx, ihh.1, ihh.2]

/-- `takeDigits` on a rendered number followed by a non-digit rest. -/
theorem takeDigits_append (m : Nat) (rest : List Char)
    (hrest : ∀ c ∈ rest.take 1, c.isDigit = false) :
    takeDigits (natToChars m ++ rest) = some (m, rest) := by
  obtain ⟨h1, h2⟩ :=
    takeWhile_digits_append (natToChars m) rest (natToChars_digits m) hrest
  unfold takeDigits
  simp only [h1, h2]
  rw [if_neg (natToChars_ne_nil m), digitsToNat_natToChars]

/-- Digit characters are not whitespace. -/
theorem isSpaceChar_of_isDigit (c : Char) (h : c.isDigit = true) :
    isSpaceChar c = false := by
  unfold isSpaceChar
  have h1 : (c == ' ') = false := by
    cases hc : c == ' ' with
    | false => rfl
    | true => rw [eq_of_beq hc] at h; exact absurd h (by decide)
  have h2 : (c == '\t') = false := by
    cases hc : c == '\t' with
    | false => rfl
    | true => rw [eq_of_beq hc] at h; exact absurd h (by decide)
  have h3 : (c == '\n') = false := by
    cases hc : c == '\n' with
    | false => rfl
    | true => rw [eq_of_beq hc] at h; exact absurd h (by decide)
  have h4 : (c == '\r') = false := by
    cases hc : c == '\r' with
    | false => rfl
    | true => rw [eq_of_beq hc] at h; exact absurd h (by decide)
  simp [h1, h2, h3, h4]

/-- `trim` is the identity on strings with no leading or trailing
whitespace. -/
theorem trimChars_no_space (s : List Char)
    (hh : ∀ c ∈ s.take 1, isSpaceChar c = false)
    (hl : ∀ c ∈ s.reverse.take 1, isSpaceChar c = false) :
    trimChars s = s := by
  unfold trimChars
  have h1 : s.dropWhile isSpaceChar = s := by
    cases s with
    | nil => rfl
    | cons a t => simp [List.dropWhile_cons, hh a (by simp)]
  rw [h1]
  have h2 : s.reverse.dropWhile isSpaceChar = s.reverse := by
    cases hr : s.reverse with
    | nil => rfl
    | cons a t =>
      have ha := hl a (by simp [hr])
      simp [List.dropWhile_cons, ha]
  rw [h2, List.reverse_reverse]

/-- The source gcd agrees with `Nat.gcd`. -/
theorem gcdAux_eq : ∀ (fuel a b : Nat), b < fuel →
    Geometry.gcdAux fuel a b = Nat.gcd b a := by
  intro fuel
  induction fuel with
  | zero => intro a b h; omega
  | succ f ih =>
    intro a b h
    simp only [Geometry.gcdAux]
    by_cases hb : b = 0
    · simp [hb]
    · simp only [hb, if_false]
      rw [ih b (a % b) (by
        have := Nat.mod_lt a (Nat.pos_of_ne_zero hb); omega)]
      exact (Nat.gcd_rec b a).symm

/-- `Geometry.gcd` is `Nat.gcd`. -/
theorem geometry_gcd_eq_nat_gcd (a b : Nat) : Geometry.gcd a b = Nat.gcd a b := by
  unfold Geometry.gcd
  rw [gcdAux_eq (b + 1) a b (Nat.lt_succ_self b), Nat.gcd_comm]

/-- `Math.round` of a nonnegative integer value is itself. -/
theorem jsRound_natCast (r : Nat) : jsRound (r : ℚ) = r := by
  unfold jsRound
  rw [Int.floor_eq_iff]
  constructor
  · push_cast; linarith
  · push_cast; linarith

/-- Floor of `n/16` over `ℚ` is natural division. -/
theorem floor_div_sixteen (n q r : Nat) (h : n = 16 * q + r) (hr : r < 16) :
    ⌊(n : ℚ) / 16⌋ = (q : ℤ) := by
  have hcast : (n : ℚ) = 16 * q + r := by exact_mod_cast congrArg Nat.cast h
  have hr' : (r : ℚ) < 16 := by exact_mod_cast hr
  have hr0 : (0 : ℚ) ≤ r := Nat.cast_nonneg r
  rw [Int.floor_eq_iff]
  constructor
  · rw [le_div_iff₀ (by norm_num : (0 : ℚ) < 16), hcast]
    push_cast
    linarith
  · rw [div_lt_iff₀ (by norm_num : (0 : ℚ) < 16), hcast]
    push_cast
    linarith

/-- `trim` is the identity on a digit-led string with a non-space final
character. -/
theorem trimChars_digits_front (m : Nat) (rest : List Char)
    (hl : ∀ c ∈ (natToChars m ++ rest).reverse.take 1, isSpaceChar c = false) :
    trimChars (natToChars m ++ rest) = natToChars m ++ rest := by
  apply trimChars_no_space _ _ hl
  obtain ⟨c, cs, hcs⟩ := List.exists_cons_of_ne_nil (natToChars_ne_nil m)
  rw [hcs]
  intro x hx
  simp only [List.cons_append, List.take_succ_cons, List.take_zero,
    List.mem_singleton] at hx
  subst hx
  exact isSpaceChar_of_isDigit x
    (natToChars_digits m x (hcs ▸ List.mem_cons_self x cs))

/-- The feet format fails whenever the character after the leading digit run
is not an apostrophe. -/
theorem feetMatchFn_none_of_head (m : Nat) (c : Char) (t : List Char)
    (hc1 : c.isDigit = false) (hc2 : c ≠ apostropheChar) :
    Geometry.feetMatchFn (natToChars m ++ c :: t) = none := by
  unfold Geometry.feetMatchFn
  rw [takeDigits_append m (c :: t) (by
    intro x hx
    simp only [List.take_succ_cons, List.take_zero, List.mem_singleton] at hx
    subst hx
    exact hc1)]
  simp [hc2]

/-- `\s*` consumes a leading space. -/
theorem dropSpaces_cons_space (t : List Char) :
    dropSpaces (' ' :: t) = dropSpaces t := by
  unfold dropSpaces
  rw [List.dropWhile_cons, if_pos (by decide)]

/-- `\s*` consumes nothing in front of a digit run. -/
theorem dropSpaces_digits (m : Nat) (rest : List Char) :
    dropSpaces (natToChars m ++ rest) = natToChars m ++ rest := by
  obtain ⟨c, cs, hcs⟩ := List.exists_cons_of_ne_nil (natToChars_ne_nil m)
  rw [hcs, List.cons_append]
  unfold dropSpaces
  rw [List.dropWhile_cons, if_neg]
  rw [isSpaceChar_of_isDigit c (natToChars_digits m c (hcs ▸ List.mem_cons_self c cs))]
  simp

/-- Parsing a rendered whole-inch string `<m>"`. -/
theorem parse_whole (m : Nat) :
    Geometry.parseMeasurement (natToChars m ++ ['"']) = some (m : ℚ) := by
  have htrim : trimChars (natToChars m ++ ['"']) = natToChars m ++ ['"'] := by
    apply trimChars_digits_front
    simp only [List.reverse_append]
    intro c hc
    simp only [List.reverse_cons, List.reverse_nil, List.nil_append,
      List.cons_append, List.take_succ_cons, List.take_zero,
      List.mem_singleton] at hc
    subst hc
    decide
  have htd := takeDigits_append m ['"'] (by decide)
  have hne : natToChars m ++ ['"'] ≠ [] := by
    simp [natToChars_ne_nil m]
  have hfeet := feetMatchFn_none_of_head m '"' [] (by decide) (by decide)
  have hmx : Geometry.mixedMatchFn (natToChars m ++ ['"']) = none := by
    simp only [Geometry.mixedMatchFn, htd]
    rw [if_neg]
    decide
  have hfr : Geometry.fractionMatchFn (natToChars m ++ ['"']) = none := by
    simp only [Geometry.fractionMatchFn, parseFracTail, htd]
    rw [if_neg]
    decide
  have hpl : Geometry.plainMatchFn (natToChars m ++ ['"']) = some (m : ℚ) := by
    simp only [Geometry.plainMatchFn, htd]
    rw [if_neg (by decide), if_pos (by right; rfl)]
  unfold Geometry.parseMeasurement
  rw [htrim, if_neg hne, hfeet, hmx, hfr, hpl]

/-- Parsing a rendered mixed string `<m> <a>/<b>"`. -/
theorem parse_mixed (m a b : Nat) :
    Geometry.parseMeasurement (natToChars m ++
      (' ' :: (natToChars a ++ ('/' :: (natToChars b ++ ['"']))))) =
    some ((m : ℚ) + (a : ℚ) / (b : ℚ)) := by
  have htrim : trimChars (natToChars m ++
      (' ' :: (natToChars a ++ ('/' :: (natToChars b ++ ['"']))))) =
      natToChars m ++ (' ' :: (natToChars a ++ ('/' :: (natToChars b ++ ['"'])))) := by
    apply trimChars_digits_front
    simp only [List.reverse_append, List.reverse_cons, List.reverse_nil,
      List.nil_append, List.append_assoc, List.cons_append]
    intro c hc
    simp only [List.take_succ_cons, List.take_zero, List.mem_singleton] at hc
    subst hc
    decide
  have hrest : ∀ c ∈ ((' ' :: (natToChars a ++ ('/' :: (natToChars b ++ ['"'])))) :
      List Char).take 1, c.isDigit = false := by
    intro c hc
    simp only [List.take_succ_cons, List.take_zero, List.mem_singleton] at hc
    subst hc
    decide
  have htd := takeDigits_append m _ hrest
  have hne : natToChars m ++
      (' ' :: (natToChars a ++ ('/' :: (natToChars b ++ ['"'])))) ≠ [] := by
    simp [natToChars_ne_nil m]
  have hfeet := feetMatchFn_none_of_head m ' '
    (natToChars a ++ ('/' :: (natToChars b ++ ['"']))) (by decide) (by decide)
  have hfrac : parseFracTail (natToChars a ++ ('/' :: (natToChars b ++ ['"']))) =
      some (a, b) := by
    simp only [parseFracTail,
      takeDigits_append a ('/' :: (natToChars b ++ ['"'])) (by
        intro c hc
        simp only [List.take_succ_cons, List.take_zero, List.mem_singleton] at hc
        subst hc
        decide),
      takeDigits_append b ['"'] (by decide), quoteEnd]
    simp
  have hmx : Geometry.mixedMatchFn (natToChars m ++
      (' ' :: (natToChars a ++ ('/' :: (natToChars b ++ ['"']))))) =
      some ((m : ℚ) + (a : ℚ) / (b : ℚ)) := by
    simp only [Geometry.mixedMatchFn, htd]
    rw [if_pos]
    · simp only [dropSpaces_cons_space, dropSpaces_digits, hfrac]
    · exact ⟨List.cons_ne_nil _ _, by rw [List.headD_cons]; decide⟩
  unfold Geometry.parseMeasurement
  rw [htrim, if_neg hne, hfeet, hmx]

/-- `formatInches` on a whole number of inches (at least one) renders
`<q>"`. -/
theorem formatInches_whole (q : Nat) (hq : 1 ≤ q) :
    Geometry.formatInches (q : ℚ) = natToChars q ++ ['"'] := by
  have hq1 : (1 : ℚ) ≤ (q : ℚ) := by exact_mod_cast hq
  simp only [Geometry.formatInches]
  rw [if_neg (by rw [not_lt]; linarith)]
  rw [Int.floor_natCast]
  have hz : (q : ℚ) - ((q : ℤ) : ℚ) = 0 := by push_cast; ring
  rw [hz, if_neg (by norm_num), Int.toNat_natCast]
  exact trimChars_digits_front q ['"'] (by
    simp only [List.reverse_append]
    intro c hc
    simp only [List.reverse_cons, List.reverse_nil, List.nil_append,
      List.cons_append, List.take_succ_cons, List.take_zero,
      List.mem_singleton] at hc
    subst hc
    decide)

/-- `formatInches` on `q + r/16` inches with `1 ≤ r < 16` renders the mixed
string `<q> <r/g>/<16/g>"` with `g = gcd r 16`. -/
theorem formatInches_frac (q r : Nat) (hrlt : r < 16) (hr1 : 1 ≤ r) :
    Geometry.formatInches (((16 * q + r : ℕ) : ℚ) / 16) =
      natToChars q ++
        (' ' :: (natToChars (r / Nat.gcd r 16) ++
          ('/' :: (natToChars (16 / Nat.gcd r 16) ++ ['"'])))) := by
  have hr1' : (1 : ℚ) ≤ (r : ℚ) := by exact_mod_cast hr1
  have hq0 : (0 : ℚ) ≤ (q : ℚ) := Nat.cast_nonneg q
  have hcast : ((16 * q + r : ℕ) : ℚ) = 16 * q + r := by push_cast; ring
  simp only [Geometry.formatInches]
  rw [if_neg (by
    rw [not_lt, hcast, le_div_iff₀ (by norm_num : (0 : ℚ) < 16)]
    linarith)]
  rw [floor_div_sixteen (16 * q + r) q r rfl hrlt]
  have hfr : ((16 * q + r : ℕ) : ℚ) / 16 - ((q : ℤ) : ℚ) = (r : ℚ) / 16 := by
    rw [hcast]; push_cast; ring
  rw [hfr]
  rw [if_pos (by
    rw [gt_iff_lt, lt_div_iff₀ (by norm_num : (0 : ℚ) < 16)]
    linarith)]
  have hround : jsRound ((r : ℚ) / 16 * 16) = (r : ℤ) := by
    rw [div_mul_cancel₀ _ (by norm_num : (16 : ℚ) ≠ 0)]
    exact jsRound_natCast r
  rw [hround]
  rw [if_pos (by exact_mod_cast hr1)]
  rw [if_neg (by
    intro h
    have : r = 16 := by exact_mod_cast h
    omega)]
  simp only [Int.toNat_natCast]
  rw [geometry_gcd_eq_nat_gcd]
  have hassoc : natToChars q ++ [' '] ++ natToChars (r / Nat.gcd r 16) ++
      ['/'] ++ natToChars (16 / Nat.gcd r 16) ++ ['"'] =
      natToChars q ++
        (' ' :: (natToChars (r / Nat.gcd r 16) ++
          ('/' :: (natToChars (16 / Nat.gcd r 16) ++ ['"'])))) := by
    simp [List.append_assoc]
  rw [hassoc]
  exact trimChars_digits_front q _ (by
    simp only [List.reverse_append, List.reverse_cons, List.reverse_nil,
      List.nil_append, List.append_assoc, List.cons_append]
    intro c hc
    simp only [List.take_succ_cons, List.take_zero, List.mem_singleton] at hc
    subst hc
    decide)

/-- C2: every nonnegative multiple of 1/16 up to 100 round-trips through
`formatInches` and `parseMeasurement` to a non-null value within 1/16 of the
original (in fact exactly equal). -/
theorem measurement_round_trip (n : Nat) (_hn : n ≤ 1600) :
    ∃ r : ℚ, Geometry.parseMeasurement (Geometry.formatInches ((n : ℚ) / 16)) =
      some r ∧ |r - (n : ℚ) / 16| ≤ 1/16 := by
  by_cases h0 : n = 0
  · subst h0
    refine ⟨0, ?_, by norm_num⟩
    have hfmt : Geometry.formatInches (0 : ℚ) = ['0', '"'] := by
      simp only [Geometry.formatInches]
      rw [if_pos (by norm_num)]
    norm_num [hfmt]
    rw [show (['0', '"'] : List Char) = natToChars 0 ++ ['"'] from rfl]
    exact_mod_cast parse_whole 0
  · have hsplit : n = 16 * (n / 16) + n % 16 := (Nat.div_add_mod n 16).symm
    have hrlt : n % 16 < 16 := Nat.mod_lt _ (by omega)
    set q := n / 16 with hqdef
    set r := n % 16 with hrdef
    by_cases hr0 : r = 0
    · have hq1 : 1 ≤ q := by omega
      have hval : (n : ℚ) / 16 = (q : ℚ) := by
        have : (n : ℚ) = 16 * q := by
          exact_mod_cast (by omega : n = 16 * q)
        rw [this]
        ring
      refine ⟨(q : ℚ), ?_, by rw [hval]; norm_num⟩
      rw [hval, formatInches_whole q hq1, parse_whole q]
    · have hr1 : 1 ≤ r := by omega
      have hg := Nat.gcd_dvd_left r 16
      have hg16 := Nat.gcd_dvd_right r 16
      have hgpos : 0 < Nat.gcd r 16 := Nat.gcd_pos_of_pos_right r (by omega)
      have hcastn : ((16 * q + r : ℕ) : ℚ) = (n : ℚ) := by
        exact_mod_cast congrArg (Nat.cast : ℕ → ℚ) hsplit.symm
      have hval : (q : ℚ) + ((r / Nat.gcd r 16 : ℕ) : ℚ) /
          ((16 / Nat.gcd r 16 : ℕ) : ℚ) = (n : ℚ) / 16 := by
        have hgne : ((Nat.gcd r 16 : ℕ) : ℚ) ≠ 0 := by exact_mod_cast hgpos.ne'
        rw [Nat.cast_div hg hgne, Nat.cast_div hg16 hgne]
        have hn16 : (n : ℚ) = 16 * q + r := by
          rw [← hcastn]; push_cast; ring
        have h16 : ((16 : ℕ) : ℚ) = 16 := by norm_num
        rw [hn16, h16]
        field_simp
        ring
      refine ⟨(q : ℚ) + ((r / Nat.gcd r 16 : ℕ) : ℚ) /
          ((16 / Nat.gcd r 16 : ℕ) : ℚ), ?_, by rw [hval]; norm_num⟩
      have hfmt := formatInches_frac q r hrlt hr1
      rw [← hcastn, hfmt, parse_mixed]

/-- Witness for C2 at `v = 33/16` (2 1/16 inches). -/
theorem measurement_round_trip_witness :
    ∃ r : ℚ, Geometry.parseMeasurement
      (Geometry.formatInches (((33 : ℕ) : ℚ) / 16)) = some r ∧
      |r - ((33 : ℕ) : ℚ) / 16| ≤ 1/16 :=
  measurement_round_trip 33 (by decide)
